import Mathlib

/-!
# Provider identifiers and the normalised virtual machine

A shallow embedding of

* `pkg/provider/node/provider_id.go` (`ParseProviderID`, `ProviderID.String`,
  `VMSSOrchestration`, `UniformVMSSInstanceID`),
* `pkg/provider/virtualmachine/virtualmachine.go` (`FromVirtualMachine`, `ByVMSS`, `ByVMAS`),
* the resolver entry points of `pkg/provider/azure_vmss.go` that consume them.

Go strings are modelled as lists of characters.  A Go panic is modelled as `Except.error`
carrying the panic message; a Go `(value, error)` result is modelled as a pair whose second
component is `none` for a nil error.
-/

namespace CloudProviderAzure

/-- A Go `string`, as the list of its characters. -/
abbrev Str := List Char

/-- A Go `error` value (its message); a nil error is `none` at the use sites. -/
abbrev GoError := Str

/-- A computation that may panic: `Except.error msg` is `panic(msg)`. -/
abbrev PanicOr (α : Type) := Except Str α

/-! ## The subset of `regexp` used by the two patterns -/

/-- Character classes occurring inside the capture groups of the two patterns. -/
inductive Cls
  | notSlash   -- `[^/]`
  | dot        -- `.` (any character except a line feed)
deriving DecidableEq, Repr

/-- Membership test of a character class. -/
def Cls.test : Cls → Char → Bool
  | .notSlash, c => c != '/'
  | .dot, c => c != '\n'

/-- One element of a pattern (patterns are sequences anchored by `^` and `$`). -/
inductive Item
  | chr (c : Char)      -- a literal character
  | any                 -- an unescaped `.` outside a group
  | group (cls : Cls)   -- a capture group `(C+)`, greedy
deriving DecidableEq, Repr

/-- The items of a literal piece of pattern text. -/
def lits (s : String) : List Item := s.toList.map Item.chr

/-- Greedy `C*` followed by the continuation `k`: the longest run is tried first and
shorter runs are tried on failure.  Returns the text consumed by the run together with
the captures of the continuation. -/
def matchRun (p : Char → Bool) (k : Str → Option (List Str)) : Str → Option (Str × List Str)
  | [] => (k []).map fun caps => ([], caps)
  | x :: xs =>
    if p x then
      match matchRun p k xs with
      | some (g, caps) => some (x :: g, caps)
      | none => (k (x :: xs)).map fun caps => ([], caps)
    else (k (x :: xs)).map fun caps => ([], caps)

/-- Anchored match of a pattern against the whole input; on success the texts of the
capture groups, in order. -/
def matchFrom : List Item → Str → Option (List Str)
  | [], s => if s = [] then some [] else none
  | .chr c :: r, s =>
    match s with
    | [] => none
    | x :: xs => if x = c then matchFrom r xs else none
  | .any :: r, s =>
    match s with
    | [] => none
    | x :: xs => if x != '\n' then matchFrom r xs else none
  | .group cls :: r, s =>
    match s with
    | [] => none
    | x :: xs =>
      if cls.test x then
        (matchRun cls.test (matchFrom r) xs).map fun gc => (x :: gc.1) :: gc.2
      else none

/-- Embeds `(*Regexp).FindStringSubmatch` for an anchored pattern: nil when there is no match,
otherwise the whole match followed by the capture groups. -/
def FindStringSubmatch (re : List Item) (s : Str) : List Str :=
  match matchFrom re s with
  | none => []
  | some caps => s :: caps

/-- The pattern `vmRegexp`. -/
def vmRegexp : List Item :=
  lits "azure:///subscriptions/" ++ [Item.group .notSlash] ++
  lits "/resourceGroups/" ++ [Item.group .notSlash] ++
  lits "/providers/Microsoft" ++ [Item.any] ++ lits "Compute/virtualMachines/" ++
  [Item.group .dot]

/-- The pattern `vmssRegexp`. -/
def vmssRegexp : List Item :=
  lits "azure:///subscriptions/" ++ [Item.group .notSlash] ++
  lits "/resourceGroups/" ++ [Item.group .notSlash] ++
  lits "/providers/Microsoft" ++ [Item.any] ++ lits "Compute/virtualMachineScaleSets/" ++
  [Item.group .notSlash] ++ lits "/virtualMachines/" ++ [Item.group .notSlash]

/-! ## `virtualmachine` constants -/

/-- Embeds `type Manage string`. -/
abbrev Manage := Str

/-- Embeds `VMSS Manage = "vmss"`. -/
def VMSS : Manage := "vmss".toList

/-- Embeds `VMAS Manage = "vmas"`. -/
def VMAS : Manage := "vmas".toList

/-- Embeds `type VMSSMode string`. -/
abbrev VMSSMode := Str

/-- Embeds `Uniform VMSSMode = "uniform"`. -/
def Uniform : VMSSMode := "uniform".toList

/-- Embeds `Flexible VMSSMode = "flexible"`. -/
def Flexible : VMSSMode := "flexible".toList

/-- Embeds `VMSSMode.IsUniform`. -/
def VMSSMode.IsUniform (o : VMSSMode) : Bool := o == Uniform

/-- Embeds `VMSSMode.IsFlexible`. -/
def VMSSMode.IsFlexible (o : VMSSMode) : Bool := o == Flexible

/-! ## `ProviderID` -/

/-- The struct `ProviderID`. -/
structure ProviderID where
  VMManage : Manage
  SubscriptionID : Str
  ResourceGroup : Str
  VMSSName : Str
  VMName : Str
deriving DecidableEq, Repr

/-- The zero value `ProviderID{}`. -/
def ProviderID.zero : ProviderID := ⟨[], [], [], [], []⟩

/-- Embeds `ParseProviderID`: the two patterns are tried in order; `len(res) == 4` (resp. `5`)
is the match on a list of exactly that many entries. -/
def ParseProviderID (id : Str) : ProviderID × Option GoError :=
  match FindStringSubmatch vmRegexp id with
  | [_, r1, r2, r3] =>
    ({ VMManage := VMAS, SubscriptionID := r1, ResourceGroup := r2, VMSSName := [],
       VMName := r3 }, none)
  | _ =>
    match FindStringSubmatch vmssRegexp id with
    | [_, r1, r2, r3, r4] =>
      ({ VMManage := VMSS, SubscriptionID := r1, ResourceGroup := r2, VMSSName := r3,
         VMName := r4 }, none)
    | _ => (ProviderID.zero, some "invalid provider id".toList)

/-- Embeds `ProviderID.ManagedByVMAS`. -/
def ProviderID.ManagedByVMAS (p : ProviderID) : Bool := p.VMManage == VMAS

/-- Embeds `ProviderID.ManagedByVMSS`. -/
def ProviderID.ManagedByVMSS (p : ProviderID) : Bool := p.VMManage == VMSS

/-- Embeds `strings.HasPrefix`. -/
def HasPrefix (s pre : Str) : Bool := pre.isPrefixOf s

/-- Embeds `strings.Split(s, sep)` for a separator of one character: the pieces between the
occurrences of `sep`; never empty (`Split("", sep)` is `[""]`). -/
def Split (sep : Char) : Str → List Str
  | [] => [[]]
  | c :: cs =>
    if c = sep then [] :: Split sep cs
    else
      match Split sep cs with
      | [] => [[c]]
      | h :: t => (c :: h) :: t

/-- Embeds `ProviderID.VMSSOrchestration`. -/
def ProviderID.VMSSOrchestration (p : ProviderID) : PanicOr VMSSMode :=
  if !p.ManagedByVMSS then
    .error "should never call this function on non-VMSS provider".toList
  else if HasPrefix p.VMName p.VMSSName then .ok Uniform
  else .ok Flexible

/-- Embeds `ProviderID.UniformVMSSInstanceID`; `parts[len(parts)-1]` is the last piece. -/
def ProviderID.UniformVMSSInstanceID (p : ProviderID) : PanicOr Str :=
  match p.VMSSOrchestration with
  | .error msg => .error msg
  | .ok mode =>
    if !mode.IsUniform then
      .error "should never call this function for non-uniform vmss".toList
    else
      let parts := Split '_' p.VMName
      if parts.length < 2 then .error "invalid vmss instance id".toList
      else .ok (parts.getLastD [])

/-- Embeds `ProviderID.String`: the two `fmt.Sprintf` templates. -/
def ProviderID.String (p : ProviderID) : Str :=
  if p.ManagedByVMAS then
    "azure:///subscriptions/".toList ++ p.SubscriptionID ++ "/resourceGroups/".toList ++
      p.ResourceGroup ++ "/providers/Microsoft.Compute/virtualMachines/".toList ++ p.VMName
  else
    "azure:///subscriptions/".toList ++ p.SubscriptionID ++ "/resourceGroups/".toList ++
      p.ResourceGroup ++ "/providers/Microsoft.Compute/virtualMachineScaleSets/".toList ++
      p.VMSSName ++ "/virtualMachines/".toList ++ p.VMName

/-! ## Wire formats, as the interface description words them -/

/-- The AS-managed wire format
`azure:///subscriptions/<sub>/resourceGroups/<rg>/providers/Microsoft.Compute/virtualMachines/<vmName>`. -/
def asWire (sub rg vm : Str) : Str :=
  "azure:///subscriptions/".toList ++ (sub ++ ("/resourceGroups/".toList ++ (rg ++
    ("/providers/Microsoft.Compute/virtualMachines/".toList ++ vm))))

/-- The scale-set-managed wire format
`azure:///subscriptions/<sub>/resourceGroups/<rg>/providers/Microsoft.Compute/virtualMachineScaleSets/<vmssName>/virtualMachines/<vmName>`. -/
def vmssWire (sub rg ss vm : Str) : Str :=
  "azure:///subscriptions/".toList ++ (sub ++ ("/resourceGroups/".toList ++ (rg ++
    ("/providers/Microsoft.Compute/virtualMachineScaleSets/".toList ++ (ss ++
      ("/virtualMachines/".toList ++ vm))))))

/-- A segment of a wire-format identifier: non-empty, without `/` and without a line feed. -/
def validSegment (seg : Str) : Prop := seg ≠ [] ∧ '/' ∉ seg ∧ '\n' ∉ seg

instance (seg : Str) : Decidable (validSegment seg) := by
  unfold validSegment; infer_instance

/-- A captured `[^/]+` segment: non-empty and free of `/`. -/
def slashFree (g : Str) : Prop := g ≠ [] ∧ '/' ∉ g

instance (g : Str) : Decidable (slashFree g) := by
  unfold slashFree; infer_instance

/-- The naming scheme of uniform scale-set instances as the specification words it:
the VM name is the scale-set name, then `_`, then a non-empty numeric instance suffix. -/
def specUniformName (p : ProviderID) : Prop :=
  ∃ n : Str, n ≠ [] ∧ (∀ c ∈ n, c.isDigit = true) ∧ p.VMName = p.VMSSName ++ '_' :: n

/-! ## The `compute` SDK shapes read by the repository

Only the fields that the repository reads or copies are kept.  SDK structs that are
copied by pointer and never inspected are uninterpreted payloads. -/

/-- Content of an SDK struct whose fields the repository never reads. -/
abbrev Payload := Nat

/-- Embeds `compute.SubResource`. -/
structure SubResource where
  ID : Option Str
deriving DecidableEq, Repr

/-- Embeds `compute.OSProfile`. -/
structure OSProfile where
  ComputerName : Option Str
deriving DecidableEq, Repr

/-- Embeds `compute.HardwareProfile`. -/
structure HardwareProfile where
  VMSize : Str
deriving DecidableEq, Repr

/-- Embeds `compute.Sku`. -/
structure Sku where
  Name : Option Str
deriving DecidableEq, Repr

/-- Embeds `compute.InstanceViewStatus`. -/
structure InstanceViewStatus where
  Code : Option Str
deriving DecidableEq, Repr

/-- Embeds `compute.VirtualMachineInstanceView`. -/
structure VirtualMachineInstanceView where
  Statuses : Option (List InstanceViewStatus)
deriving DecidableEq, Repr

/-- Embeds `compute.VirtualMachineProperties`, held by pointer in `compute.VirtualMachine`. -/
structure VirtualMachineProperties where
  HardwareProfile : Option HardwareProfile
  OsProfile : Option OSProfile
  NetworkProfile : Option Payload
  AvailabilitySet : Option SubResource
  VirtualMachineScaleSet : Option SubResource
  ProvisioningState : Option Str
  InstanceView : Option VirtualMachineInstanceView
deriving DecidableEq, Repr

/-- Embeds `compute.VirtualMachine` (`Type_` is the field `Type`). -/
structure RawVirtualMachine where
  Plan : Option Payload
  VirtualMachineProperties : Option VirtualMachineProperties
  Resources : Option (List Payload)
  Identity : Option Payload
  Zones : Option (List Str)
  ID : Option Str
  Name : Option Str
  Type_ : Option Str
  Location : Option Str
  Tags : List (Str × Option Str)
deriving DecidableEq, Repr

/-- Embeds `compute.VirtualMachineScaleSetVMInstanceView`. -/
structure VirtualMachineScaleSetVMInstanceView where
  Statuses : Option (List InstanceViewStatus)
deriving DecidableEq, Repr

/-- Embeds `compute.VirtualMachineScaleSetVMProperties`, held by pointer in
`compute.VirtualMachineScaleSetVM`. -/
structure VirtualMachineScaleSetVMProperties where
  HardwareProfile : Option HardwareProfile
  OsProfile : Option OSProfile
  NetworkProfile : Option Payload
  AvailabilitySet : Option SubResource
  ProvisioningState : Option Str
  InstanceView : Option VirtualMachineScaleSetVMInstanceView
deriving DecidableEq, Repr

/-- Embeds `compute.VirtualMachineScaleSetVM`. -/
structure RawVirtualMachineScaleSetVM where
  InstanceID : Option Str
  Sku : Option Sku
  VirtualMachineScaleSetVMProperties : Option VirtualMachineScaleSetVMProperties
  Plan : Option Payload
  Resources : Option (List Payload)
  Zones : Option (List Str)
  ID : Option Str
  Name : Option Str
  Type_ : Option Str
  Location : Option Str
  Tags : List (Str × Option Str)
deriving DecidableEq, Repr

/-- Embeds `to.String`: the pointed-to string, or the empty string for nil. -/
def to_String (s : Option Str) : Str := s.getD []

/-- Embeds `to.StringSlice`: the pointed-to slice, or nil. -/
def toStringSlice (s : Option (List Str)) : List Str := s.getD []

/-- Embeds `to.StringMap`: every value dereferenced, a nil value becoming the empty string. -/
def toStringMap (m : List (Str × Option Str)) : List (Str × Str) :=
  m.map fun kv => (kv.1, to_String kv.2)

/-- The message of the runtime panic raised by dereferencing a nil pointer. -/
def nilDereference : Str := "runtime error: invalid memory address or nil pointer dereference".toList

/-! ## `virtualmachine.VirtualMachine` -/

/-- Embeds `type Variant string`. -/
abbrev Variant := Str

/-- Embeds `VariantVirtualMachine`. -/
def VariantVirtualMachine : Variant := "VirtualMachine".toList

/-- Embeds `VariantVirtualMachineScaleSetVM`. -/
def VariantVirtualMachineScaleSetVM : Variant := "VirtualMachineScaleSetVM".toList

/-- The struct `virtualmachine.VirtualMachine`. -/
structure VirtualMachine where
  Variant : Variant
  vm : Option RawVirtualMachine
  vmssVM : Option RawVirtualMachineScaleSetVM
  ResourceGroup : Str
  Manage : Manage
  VMSSName : Str
  VMASName : Str
  ID : Str
  Name : Str
  Location : Str
  Tags : List (Str × Str)
  Zones : List Str
  Type_ : Str
  Plan : Option Payload
  Resources : Option (List Payload)
  OSProfile : Option OSProfile
  NetworkProfile : Option Payload
  HardwareProfile : Option HardwareProfile
  InstanceViewStatus : Option (List InstanceViewStatus)
  ProvisioningState : Str
  Identity : Option Payload
  VirtualMachineProperties : Option VirtualMachineProperties
  InstanceID : Str
  SKU : Option Sku
  VirtualMachineScaleSetVMProperties : Option VirtualMachineScaleSetVMProperties
deriving DecidableEq, Repr

/-- Embeds `type ManageOption = func(*VirtualMachine)`: an update of the value under construction. -/
abbrev ManageOption := VirtualMachine → VirtualMachine

/-- Embeds `ByVMSS`. -/
def ByVMSS (vmssName : Str) : ManageOption :=
  fun vm => { vm with Manage := VMSS, VMSSName := vmssName }

/-- Embeds `ByVMAS`; as in the source, the name is stored in `VMSSName`. -/
def ByVMAS (vmasName : Str) : ManageOption :=
  fun vm => { vm with Manage := VMAS, VMSSName := vmasName }

/-- The last piece of `strings.Split(id, "/")`, i.e. `parts[len(parts)-1]`. -/
def lastSegment (id : Str) : Str := (Split '/' id).getLastD []

/-- Embeds `FromVirtualMachine`.  The promoted fields `vm.OsProfile`, `vm.NetworkProfile`, ...
and `vm.InstanceView.Statuses` of the struct literal dereference
`vm.VirtualMachineProperties` and `vm.InstanceView`; a nil pointer there panics. -/
def FromVirtualMachine (resourceGroup : Str) (vm : RawVirtualMachine)
    (opts : List ManageOption) : PanicOr VirtualMachine :=
  match vm.VirtualMachineProperties with
  | none => .error nilDereference
  | some props =>
    match props.InstanceView with
    | none => .error nilDereference
    | some instanceView =>
      let v : VirtualMachine :=
        { vm := some vm
          Variant := VariantVirtualMachine
          Manage := VMAS
          ResourceGroup := resourceGroup
          VMSSName := []
          VMASName := []
          ID := to_String vm.ID
          Name := to_String vm.Name
          Type_ := to_String vm.Type_
          Location := to_String vm.Location
          Tags := toStringMap vm.Tags
          Zones := toStringSlice vm.Zones
          Plan := vm.Plan
          Resources := vm.Resources
          OSProfile := props.OsProfile
          NetworkProfile := props.NetworkProfile
          HardwareProfile := props.HardwareProfile
          InstanceViewStatus := instanceView.Statuses
          ProvisioningState := to_String props.ProvisioningState
          Identity := vm.Identity
          VirtualMachineProperties := vm.VirtualMachineProperties
          vmssVM := none
          InstanceID := []
          SKU := none
          VirtualMachineScaleSetVMProperties := none }
      let opts1 :=
        match props.VirtualMachineScaleSet with
        | some ⟨some id⟩ => opts ++ [ByVMSS (lastSegment id)]
        | _ => opts
      let opts2 :=
        match props.AvailabilitySet with
        | some ⟨some id⟩ => opts1 ++ [ByVMAS (lastSegment id)]
        | _ => opts1
      .ok (opts2.foldl (fun acc opt => opt acc) v)

/-- Embeds `VirtualMachine.IsVirtualMachine`. -/
def VirtualMachine.IsVirtualMachine (vm : VirtualMachine) : Bool :=
  vm.Variant == VariantVirtualMachine

/-- Embeds `VirtualMachine.IsVirtualMachineScaleSetVM`. -/
def VirtualMachine.IsVirtualMachineScaleSetVM (vm : VirtualMachine) : Bool :=
  vm.Variant == VariantVirtualMachineScaleSetVM

/-- Embeds `VirtualMachine.ManagedByVMSS`. -/
def VirtualMachine.ManagedByVMSS (vm : VirtualMachine) : Bool := vm.Manage == VMSS

/-! ## The resolver entry points of `ScaleSet` -/

/-- The lookups of the VM store that the resolver calls, with the options the call sites
pass already applied.  A result is the returned pointer (`none` for nil) and the error. -/
structure VMSetStore where
  GetVMByName : Str → Option VirtualMachine × Option GoError
  GetVMByVMSSAndInstanceID : Str → Str → Str → Option VirtualMachine × Option GoError
  GetVMByVMSSAndName : Str → Str → Str → Option VirtualMachine × Option GoError

/-- Embeds `ScaleSet.GetNodeNameByProviderID`; `ToLower` stands for `strings.ToLower`. -/
def GetNodeNameByProviderID (store : VMSetStore) (ToLower : Str → Str) (providerID : Str) :
    PanicOr (Str × Option GoError) :=
  match ParseProviderID providerID with
  | (_, some err) => .ok ([], some err)
  | (p, none) =>
    if p.ManagedByVMAS then .ok (p.VMName, none)
    else
      match p.VMSSOrchestration with
      | .error msg => .error msg
      | .ok mode =>
        let looked : PanicOr (Option VirtualMachine × Option GoError) :=
          if mode.IsUniform then
            match p.UniformVMSSInstanceID with
            | .error msg => .error msg
            | .ok instanceID =>
              .ok (store.GetVMByVMSSAndInstanceID p.ResourceGroup p.VMSSName instanceID)
          else .ok (store.GetVMByVMSSAndName p.ResourceGroup p.VMSSName p.VMName)
        match looked with
        | .error msg => .error msg
        | .ok (_, some err) => .ok ([], some err)
        | .ok (none, none) => .error nilDereference
        | .ok (some vm, none) =>
          match vm.OSProfile with
          | some ⟨some computerName⟩ => .ok (ToLower computerName, none)
          | _ => .ok ([], none)

/-- Embeds `ScaleSet.GetNodeVMSetName`, on the name of the node. -/
def GetNodeVMSetName (store : VMSetStore) (nodeName : Str) : PanicOr (Str × Option GoError) :=
  match store.GetVMByName nodeName with
  | (_, some err) => .ok ([], some err)
  | (none, none) => .error nilDereference
  | (some vm, none) =>
    if vm.ManagedByVMSS then .ok (vm.VMSSName, none) else .ok (vm.VMASName, none)

/-- The loop of `ScaleSet.GetAgentPoolVMSetNames` over the remaining node names, `names`
being the slice built so far: one name is appended per node and the first lookup error
ends the call. -/
def GetAgentPoolVMSetNamesLoop (store : VMSetStore) :
    List Str → List Str → PanicOr (Option (List Str) × Option GoError)
  | [], names => .ok (some names, none)
  | n :: rest, names =>
    match store.GetVMByName n with
    | (_, some err) => .ok (none, some err)
    | (none, none) => .error nilDereference
    | (some vm, none) =>
      if vm.ManagedByVMSS then GetAgentPoolVMSetNamesLoop store rest (names ++ [vm.VMSSName])
      else GetAgentPoolVMSetNamesLoop store rest (names ++ [vm.VMASName])

/-- The method `ScaleSet.GetAgentPoolVMSetNames`, on the names of the nodes. -/
def GetAgentPoolVMSetNames (store : VMSetStore) (nodes : List Str) :
    PanicOr (Option (List Str) × Option GoError) :=
  GetAgentPoolVMSetNamesLoop store nodes []

/-- The ID carried by a sub-resource reference: present when neither the reference nor
its `ID` is nil (the guard `x != nil && x.ID != nil` of `FromVirtualMachine`). -/
def referencedID (r : Option SubResource) : Option Str :=
  match r with
  | some ⟨some id⟩ => some id
  | _ => none

/-- A store whose lookup by name answers with the given VM, and whose scale-set lookups
miss. -/
def storeHolding (v : VirtualMachine) : VMSetStore :=
  { GetVMByName := fun _ => (some v, none)
    GetVMByVMSSAndInstanceID := fun _ _ _ => (none, some "vm set store cache miss".toList)
    GetVMByVMSSAndName := fun _ _ _ => (none, some "vm set store cache miss".toList) }

/-- A raw VM with the given scale-set and availability-set references and instance view,
all other fields nil. -/
def rawVM (vmss avset : Option SubResource) (view : Option VirtualMachineInstanceView) :
    RawVirtualMachine :=
  { Plan := none
    VirtualMachineProperties := some
      { HardwareProfile := none, OsProfile := none, NetworkProfile := none,
        AvailabilitySet := avset, VirtualMachineScaleSet := vmss,
        ProvisioningState := none, InstanceView := view }
    Resources := none, Identity := none, Zones := none, ID := none
    Name := some "vm1".toList, Type_ := none, Location := none, Tags := [] }

/-- The resource ID of scale set `ss1`. -/
def ss1ID : Str :=
  "/subscriptions/S/resourceGroups/RG/providers/Microsoft.Compute/virtualMachineScaleSets/ss1".toList

/-- The resource ID of availability set `as1`. -/
def as1ID : Str :=
  "/subscriptions/S/resourceGroups/RG/providers/Microsoft.Compute/availabilitySets/as1".toList

/-! ## The VM set store

The package `pkg/cache` is not among the sources: a `TimedCache` is represented by the
result of its `Get`, and the read types by an enumeration. -/

/-- Modelled from the spec: the read policies `cache.AzureCacheReadType`, whose declaration
in `pkg/cache` is missing; the three policies are Default, UnsafeRead and ForceRefresh. -/
inductive AzureCacheReadType
  | CacheReadTypeDefault
  | CacheReadTypeUnsafe
  | CacheReadTypeForceRefresh
deriving DecidableEq, Repr

/-- The struct `vmSetStoreOption`. -/
structure vmSetStoreOption where
  readType : AzureCacheReadType
deriving DecidableEq, Repr

/-- The type `VMSetStoreOption func(*vmSetStoreOption)`: an update of the option value. -/
abbrev VMSetStoreOption := vmSetStoreOption → vmSetStoreOption

/-- The method `vmSetStoreOption.Apply`: the receiver is a copy, each option updates it in
turn, and the copy is returned. -/
def vmSetStoreOption.Apply (o : vmSetStoreOption) (opts : List VMSetStoreOption) :
    vmSetStoreOption :=
  opts.foldl (fun acc opt => opt acc) o

/-- The function `defaultStoreOption`. -/
def defaultStoreOption : vmSetStoreOption :=
  { readType := .CacheReadTypeDefault }

/-- The option `ForceRefresh()`. -/
def ForceRefresh : VMSetStoreOption :=
  fun o => { o with readType := .CacheReadTypeForceRefresh }

/-- The option `UnsafeRead()`. -/
def UnsafeRead : VMSetStoreOption :=
  fun o => { o with readType := .CacheReadTypeUnsafe }

/-- The call `o.Apply(opts)` as its caller sees it: the caller's `o` after the call, which
the callee cannot touch because the receiver is passed by value, and the returned value. -/
def applyCall (o : vmSetStoreOption) (opts : List VMSetStoreOption) :
    vmSetStoreOption × vmSetStoreOption :=
  (o, o.Apply opts)

/-- The error `ErrVMSetStoreCacheMiss`. -/
def ErrVMSetStoreCacheMiss : GoError := "vm set store cache miss".toList

/-- A reading of `time.Now()`. -/
abbrev Time := Int

/-- The struct `VMSetStoreVMEntry`. -/
structure VMSetStoreVMEntry where
  VM : Option VirtualMachine
  LastUpdated : Time
deriving DecidableEq, Repr

/-- The struct `compute.VirtualMachineScaleSet`, with the fields the repository reads. -/
structure RawVirtualMachineScaleSet where
  Name : Option Str
  ID : Option Str
  Tags : List (Str × Option Str)
  Rest : Payload
deriving DecidableEq, Repr

/-- The struct `compute.AvailabilitySet`, with the fields the repository reads. -/
structure RawAvailabilitySet where
  Name : Option Str
  ID : Option Str
  Tags : List (Str × Option Str)
  Rest : Payload
deriving DecidableEq, Repr

/-- The struct `VMSetStoreVMSSEntry`. -/
structure VMSetStoreVMSSEntry where
  ResourceGroup : Str
  VMSS : Option RawVirtualMachineScaleSet
  LastUpdated : Time
deriving DecidableEq, Repr

/-- The struct `VMSetStoreVMASEntry`. -/
structure VMSetStoreVMASEntry where
  ResourceGroup : Str
  VMAS : Option RawAvailabilitySet
  LastUpdated : Time
deriving DecidableEq, Repr

/-- A value of type `interface{}` held by a cache or a `sync.Map`, by dynamic type; pointers
are `none` when nil.  A `*sync.Map` is the list of its entries in the order in which `Range`
visits them, the keys being the strings the repository stores under. -/
inductive Dyn
  | nil                                               -- the nil interface
  | vmEntries (l : List (Option VMSetStoreVMEntry))   -- `[]*VMSetStoreVMEntry`
  | vmEntry (e : Option VMSetStoreVMEntry)            -- `*VMSetStoreVMEntry`
  | vm (v : Option VirtualMachine)                    -- `*virtualmachine.VirtualMachine`
  | vmssEntry (e : Option VMSetStoreVMSSEntry)        -- `*VMSetStoreVMSSEntry`
  | vmasEntry (e : Option VMSetStoreVMASEntry)        -- `*VMSetStoreVMASEntry`
  | syncMap (m : List (Str × Dyn))                    -- `*sync.Map`

instance : Inhabited Dyn := ⟨Dyn.nil⟩

/-- The message of the runtime panic raised by a failed type assertion `v.(T)`. -/
def interfaceConversion : Str := "interface conversion".toList

/-- The type assertion `v.(*sync.Map)`. -/
def Dyn.assertSyncMap : Dyn → PanicOr (List (Str × Dyn))
  | .syncMap m => .ok m
  | _ => .error interfaceConversion

/-- The method `(*sync.Map).Load` on a string key. -/
def syncMapLoad (m : List (Str × Dyn)) (key : Str) : Option Dyn :=
  (m.find? fun kv => kv.1 == key).map fun kv => kv.2

/-- The method `(*sync.Map).Store` on a string key: the value of an existing key is
replaced, a new key is added. -/
def syncMapStore : List (Str × Dyn) → Str → Dyn → List (Str × Dyn)
  | [], key, value => [(key, value)]
  | kv :: rest, key, value =>
    if kv.1 = key then (key, value) :: rest else kv :: syncMapStore rest key value

/-- Modelled from the spec: `cache.TimedCache`, whose package `pkg/cache` is missing; a
cache is what its `Get(key, readType)` returns, a value and an error. -/
structure TimedCache where
  Get : Str → AzureCacheReadType → Dyn × Option GoError

/-- The struct `VMSetStoreVM`. -/
structure VMSetStoreVM where
  vmListByResourceGroup : TimedCache
  vmByName : TimedCache

/-- The loop of the loader of `vmListByResourceGroup` over the remaining raw VMs, `i`
being the number of the iteration and `entries` the slice built so far. -/
def vmListLoop (rg : Str) (clock : Nat → Time) :
    List RawVirtualMachine → Nat → List (Option VMSetStoreVMEntry) →
      PanicOr (List (Option VMSetStoreVMEntry))
  | [], _, entries => .ok entries
  | vm :: rest, i, entries =>
    match FromVirtualMachine rg vm [] with
    | .error msg => .error msg
    | .ok v =>
      vmListLoop rg clock rest (i + 1) (entries ++ [some { VM := some v, LastUpdated := clock i }])

/-- The loader of `vmListByResourceGroup` in `newVMSetStoreVM`.  `vms` is the list returned
by `VirtualMachinesClient.List`, `resourceExists` and `rerr` are the results of
`checkResourceExistsFromError` on its error, and `clock i` is `time.Now()` in iteration
`i`.  The pointer `&vm` to the loop variable is represented by the raw VM it points to
when `FromVirtualMachine` runs. -/
def vmListByResourceGroupLoader (rg : Str) (vms : List RawVirtualMachine) (resourceExists : Bool)
    (rerr : Option GoError) (clock : Nat → Time) : PanicOr (Dyn × Option GoError) :=
  match rerr with
  | some err => .ok (.nil, some err)
  | none =>
    if !resourceExists then .ok (.nil, none)
    else
      match vmListLoop rg clock vms 0 [] with
      | .error msg => .error msg
      | .ok entries => .ok (.vmEntries entries, none)

/-- The scan of the loader of `vmByName` over the entries of the resource group. -/
def vmByNameScan (name : Str) : List (Option VMSetStoreVMEntry) → PanicOr (Dyn × Option GoError)
  | [] => .ok (.nil, some ErrVMSetStoreCacheMiss)
  | none :: _ => .error nilDereference
  | some entry :: rest =>
    match entry.VM with
    | none => .error nilDereference
    | some v => if v.Name = name then .ok (.vm entry.VM, none) else vmByNameScan name rest

/-- The loader of `vmByName` in `newVMSetStoreVM`; `GetNodeResourceGroup` stands for
`az.GetNodeResourceGroup`. -/
def vmByNameLoader (GetNodeResourceGroup : Str → Str × Option GoError)
    (vmListByResourceGroup : TimedCache) (name : Str) : PanicOr (Dyn × Option GoError) :=
  match GetNodeResourceGroup name with
  | (_, some err) => .ok (.nil, some err)
  | (resourceGroup, none) =>
    match vmListByResourceGroup.Get resourceGroup .CacheReadTypeDefault with
    | (_, some err) => .ok (.nil, some err)
    | (.vmEntries l, none) => vmByNameScan name l
    | (_, none) => .error interfaceConversion

/-- The method `VMSetStoreVM.GetVMByName`. -/
def VMSetStoreVM.GetVMByName (s : VMSetStoreVM) (name : Str) (opts : List VMSetStoreOption) :
    PanicOr (Option VirtualMachine × Option GoError) :=
  match s.vmByName.Get name (defaultStoreOption.Apply opts).readType with
  | (_, some err) => .ok (none, some err)
  | (.vm v, none) => .ok (v, none)
  | (_, none) => .error interfaceConversion

/-- The `Range` callback of `ListVMByVMSS` over the entries of the inner map: every value
is asserted to be a `*VMSetStoreVMEntry` and its `VM` is appended. -/
def listVMRange : List (Str × Dyn) → List (Option VirtualMachine) →
    PanicOr (List (Option VirtualMachine))
  | [], vms => .ok vms
  | (_, .vmEntry (some e)) :: rest, vms => listVMRange rest (vms ++ [e.VM])
  | (_, .vmEntry none) :: _, _ => .error nilDereference
  | _ :: _, _ => .error interfaceConversion

/-- The method `VMSetStoreVM.ListVMByVMSS`. -/
def VMSetStoreVM.ListVMByVMSS (s : VMSetStoreVM) (rg vn : Str) (opts : List VMSetStoreOption) :
    PanicOr (List (Option VirtualMachine) × Option GoError) :=
  match s.vmListByResourceGroup.Get rg (defaultStoreOption.Apply opts).readType with
  | (_, some err) => .ok ([], some err)
  | (vmListByVMSSName, none) =>
    match vmListByVMSSName.assertSyncMap with
    | .error msg => .error msg
    | .ok outer =>
      match syncMapLoad outer vn with
      | none => .ok ([], some ErrVMSetStoreCacheMiss)
      | some vmList =>
        match vmList.assertSyncMap with
        | .error msg => .error msg
        | .ok inner =>
          match listVMRange inner [] with
          | .error msg => .error msg
          | .ok vms => .ok (vms, none)

/-- The `Range` callbacks of `GetVMByVMSSAndInstanceID` and `GetVMByVMSSAndName` over the
entries of the inner map: every visited value is asserted to be a
`*virtualmachine.VirtualMachine`, and the first one satisfying `hit` ends the iteration. -/
def findVMRange (hit : VirtualMachine → Bool) : List (Str × Dyn) →
    PanicOr (Option VirtualMachine)
  | [] => .ok none
  | (_, .vm (some v)) :: rest => if hit v then .ok (some v) else findVMRange hit rest
  | (_, .vm none) :: _ => .error nilDereference
  | _ :: _ => .error interfaceConversion

/-- The common body of `GetVMByVMSSAndInstanceID` and `GetVMByVMSSAndName`, which differ in
the test of their `Range` callback only. -/
def getVMByVMSS (s : VMSetStoreVM) (rg vn : Str) (opts : List VMSetStoreOption)
    (hit : VirtualMachine → Bool) : PanicOr (Option VirtualMachine × Option GoError) :=
  match s.vmListByResourceGroup.Get rg (defaultStoreOption.Apply opts).readType with
  | (_, some err) => .ok (none, some err)
  | (vmListByVMSSName, none) =>
    match vmListByVMSSName.assertSyncMap with
    | .error msg => .error msg
    | .ok outer =>
      match syncMapLoad outer vn with
      | none => .ok (none, some ErrVMSetStoreCacheMiss)
      | some vmList =>
        match vmList.assertSyncMap with
        | .error msg => .error msg
        | .ok inner =>
          match findVMRange hit inner with
          | .error msg => .error msg
          | .ok vm => .ok (vm, none)

/-- The method `VMSetStoreVM.GetVMByVMSSAndInstanceID`. -/
def VMSetStoreVM.GetVMByVMSSAndInstanceID (s : VMSetStoreVM) (rg vn instanceID : Str)
    (opts : List VMSetStoreOption) : PanicOr (Option VirtualMachine × Option GoError) :=
  getVMByVMSS s rg vn opts fun v => v.IsVirtualMachineScaleSetVM && v.InstanceID == instanceID

/-- The method `VMSetStoreVM.GetVMByVMSSAndName`. -/
def VMSetStoreVM.GetVMByVMSSAndName (s : VMSetStoreVM) (rg vn name : Str)
    (opts : List VMSetStoreOption) : PanicOr (Option VirtualMachine × Option GoError) :=
  getVMByVMSS s rg vn opts fun v => v.Name == name

/-- The loop of the loader of `vmssListByResourceGroup` over the remaining scale sets, `i`
being the number of the iteration and `entry` the map built so far. -/
def vmssLoaderLoop (resourceGroup : Str) (clock : Nat → Time) :
    List RawVirtualMachineScaleSet → Nat → List (Str × Dyn) → PanicOr (List (Str × Dyn))
  | [], _, entry => .ok entry
  | scaleSet :: rest, i, entry =>
    if to_String scaleSet.Name = [] then vmssLoaderLoop resourceGroup clock rest (i + 1) entry
    else
      match scaleSet.Name with
      | none => .error nilDereference
      | some name =>
        vmssLoaderLoop resourceGroup clock rest (i + 1)
          (syncMapStore entry name (.vmssEntry (some
            { VMSS := some scaleSet, ResourceGroup := resourceGroup, LastUpdated := clock i })))

/-- The loader of `vmssListByResourceGroup` in `newVMSetStoreVMSS`; `scaleSets` and `err` are
the results of `VirtualMachineScaleSetsClient.List`. -/
def vmssListByResourceGroupLoader (resourceGroup : Str)
    (scaleSets : List RawVirtualMachineScaleSet) (err : Option GoError) (clock : Nat → Time) :
    PanicOr (Dyn × Option GoError) :=
  match err with
  | some e => .ok (.nil, some e)
  | none =>
    match vmssLoaderLoop resourceGroup clock scaleSets 0 [] with
    | .error msg => .error msg
    | .ok entry => .ok (.syncMap entry, none)

/-- The loop of the loader of `vmasByName` over the remaining availability sets. -/
def vmasLoaderLoop (resourceGroup : Str) (clock : Nat → Time) :
    List RawAvailabilitySet → Nat → List (Str × Dyn) → PanicOr (List (Str × Dyn))
  | [], _, entry => .ok entry
  | availabilitySet :: rest, i, entry =>
    match availabilitySet.Name with
    | none => vmasLoaderLoop resourceGroup clock rest (i + 1) entry
    | some name =>
      if name = [] then vmasLoaderLoop resourceGroup clock rest (i + 1) entry
      else
        vmasLoaderLoop resourceGroup clock rest (i + 1)
          (syncMapStore entry name (.vmasEntry (some
            { VMAS := some availabilitySet, ResourceGroup := resourceGroup,
              LastUpdated := clock i })))

/-- The loader of `vmasByName` in `newVMSetStoreVMAS`; `availabilitySets` and `err` are the
results of `AvailabilitySetsClient.List`. -/
def vmasByNameLoader (resourceGroup : Str) (availabilitySets : List RawAvailabilitySet)
    (err : Option GoError) (clock : Nat → Time) : PanicOr (Dyn × Option GoError) :=
  match err with
  | some e => .ok (.nil, some e)
  | none =>
    match vmasLoaderLoop resourceGroup clock availabilitySets 0 [] with
    | .error msg => .error msg
    | .ok entry => .ok (.syncMap entry, none)

/-- The last listed resource whose name is `k`, for a non-empty `k`. -/
def lastNamed {α : Type} (nameOf : α → Option Str) (k : Str) (l : List α) : Option α :=
  (l.filter fun a => nameOf a == some k && k != []).getLast?

/-- The function `FromVirtualMachineScaleSetVM`.  As in `FromVirtualMachine`, the promoted
fields and `vm.InstanceView.Statuses` of the struct literal dereference
`vm.VirtualMachineScaleSetVMProperties` and `vm.InstanceView`. -/
def FromVirtualMachineScaleSetVM (resourceGroup : Str) (vm : RawVirtualMachineScaleSetVM)
    (opt : ManageOption) : PanicOr VirtualMachine :=
  match vm.VirtualMachineScaleSetVMProperties with
  | none => .error nilDereference
  | some props =>
    match props.InstanceView with
    | none => .error nilDereference
    | some instanceView =>
      let v : VirtualMachine :=
        { Variant := VariantVirtualMachineScaleSetVM
          Manage := VMSS
          ResourceGroup := resourceGroup
          vmssVM := some vm
          VMSSName := []
          VMASName := []
          ID := to_String vm.ID
          Name := to_String vm.Name
          Type_ := to_String vm.Type_
          Location := to_String vm.Location
          Tags := toStringMap vm.Tags
          Zones := toStringSlice vm.Zones
          Plan := vm.Plan
          Resources := vm.Resources
          OSProfile := props.OsProfile
          NetworkProfile := props.NetworkProfile
          HardwareProfile := props.HardwareProfile
          InstanceViewStatus := instanceView.Statuses
          ProvisioningState := to_String props.ProvisioningState
          SKU := vm.Sku
          InstanceID := to_String vm.InstanceID
          VirtualMachineScaleSetVMProperties := vm.VirtualMachineScaleSetVMProperties
          vm := none
          Identity := none
          VirtualMachineProperties := none }
      .ok (opt v)

/-- A raw scale-set VM with the given properties, all other fields nil. -/
def rawVMSSVM (props : Option VirtualMachineScaleSetVMProperties) : RawVirtualMachineScaleSetVM :=
  { InstanceID := some "3".toList, Sku := none, VirtualMachineScaleSetVMProperties := props
    Plan := none, Resources := none, Zones := none, ID := none
    Name := some "ss1_3".toList, Type_ := none, Location := none, Tags := [] }

/-- A raw VM whose `VirtualMachineProperties` is nil. -/
def rawVMNoProperties : RawVirtualMachine :=
  { Plan := none, VirtualMachineProperties := none, Resources := none, Identity := none
    Zones := none, ID := none, Name := some "vm1".toList, Type_ := none, Location := none
    Tags := [] }

/-- The function `ParseProviderID` with the two patterns tried in the opposite order, for
comparison with the order of the source. -/
def ParseProviderIDSwapped (id : Str) : ProviderID × Option GoError :=
  match FindStringSubmatch vmssRegexp id with
  | [_, r1, r2, r3, r4] =>
    ({ VMManage := VMSS, SubscriptionID := r1, ResourceGroup := r2, VMSSName := r3,
       VMName := r4 }, none)
  | _ =>
    match FindStringSubmatch vmRegexp id with
    | [_, r1, r2, r3] =>
      ({ VMManage := VMAS, SubscriptionID := r1, ResourceGroup := r2, VMSSName := [],
         VMName := r3 }, none)
    | _ => (ProviderID.zero, some "invalid provider id".toList)

/-! ## `KeyVaultCredential` -/

/-- The struct `azcore.AccessToken`. -/
structure AccessToken where
  Token : Str
  ExpiresOn : Time
deriving DecidableEq, Repr

/-- The struct `KeyVaultCredentialSecret`. -/
structure KeyVaultCredentialSecret where
  AccessToken : Str
  ExpiresOn : Time
deriving DecidableEq, Repr

/-- The constant `RefreshTokenOffset = 5 * time.Minute`, in nanoseconds. -/
def RefreshTokenOffset : Int := 5 * (60 * 1000000000)

/-- The state of a `KeyVaultCredential` that `refreshToken` reads and writes. -/
structure KeyVaultCredential where
  token : Option AccessToken
deriving DecidableEq, Repr

/-- The guard `c.token != nil && c.token.ExpiresOn.Add(RefreshTokenOffset).Before(time.Now())`
of `refreshToken`. -/
def KeyVaultCredential.skipsRefresh (c : KeyVaultCredential) (now : Time) : Bool :=
  match c.token with
  | none => false
  | some t => decide (t.ExpiresOn + RefreshTokenOffset < now)

/-- The result of `refreshToken`: the credential afterwards, the returned error, and
whether `secretClient.GetSecret` was called. -/
structure RefreshResult where
  cred : KeyVaultCredential
  err : Option GoError
  fetched : Bool
deriving DecidableEq, Repr

/-- The method `KeyVaultCredential.refreshToken`.  `now1` and `now2` are the readings of
`time.Now()` under the read lock and under the write lock, `getSecret` is the result of
`secretClient.GetSecret` (the secret value or an error) and `unmarshal` stands for
`json.Unmarshal` into a `KeyVaultCredentialSecret`. -/
def KeyVaultCredential.refreshToken (c : KeyVaultCredential) (now1 now2 : Time)
    (getSecret : Except GoError (Option Str))
    (unmarshal : Str → Except GoError KeyVaultCredentialSecret) : RefreshResult :=
  if c.skipsRefresh now1 then { cred := c, err := none, fetched := false }
  else if c.skipsRefresh now2 then { cred := c, err := none, fetched := false }
  else
    match getSecret with
    | .error err => { cred := c, err := some err, fetched := true }
    | .ok none => { cred := c, err := some "secret value is nil".toList, fetched := true }
    | .ok (some value) =>
      match unmarshal value with
      | .error err =>
        { cred := c
          err := some ("unmarshal secret value \x60".toList ++ value ++ "\x60: ".toList ++ err)
          fetched := true }
      | .ok secret =>
        { cred := { token := some { Token := secret.AccessToken, ExpiresOn := secret.ExpiresOn } }
          err := none, fetched := true }

/-- The method `KeyVaultCredential.GetToken`: the credential afterwards and the returned
token and error; `*c.token` panics on a nil token. -/
def KeyVaultCredential.GetToken (c : KeyVaultCredential) (now1 now2 : Time)
    (getSecret : Except GoError (Option Str))
    (unmarshal : Str → Except GoError KeyVaultCredentialSecret) :
    PanicOr (KeyVaultCredential × AccessToken × Option GoError) :=
  let r := c.refreshToken now1 now2 getSecret unmarshal
  match r.err with
  | some err => .ok (r.cred, { Token := [], ExpiresOn := 0 }, some ("refresh token: ".toList ++ err))
  | none =>
    match r.cred.token with
    | none => .error nilDereference
    | some t => .ok (r.cred, t, none)

/-- The VM an entry pointer of a `[]*VMSetStoreVMEntry` leads to: `none` when the entry or
its `VM` is nil. -/
def entryVM (e : Option VMSetStoreVMEntry) : Option VirtualMachine :=
  match e with
  | some entry => entry.VM
  | none => none

/-- A cache whose `Get` answers every key with the given value and a nil error. -/
def cacheHolding (v : Dyn) : TimedCache :=
  { Get := fun _ _ => (v, none) }

/-- The method `ScaleSet.GetNodeNameByProviderID` over the VM store itself: the two
scale-set lookups are the methods of `VMSetStoreVM`, called with `UnsafeRead()`, and a
panic of a lookup ends the call.  `ToLower` stands for `strings.ToLower`. -/
def ScaleSet.GetNodeNameByProviderID (store : VMSetStoreVM) (ToLower : Str → Str)
    (providerID : Str) : PanicOr (Str × Option GoError) :=
  match ParseProviderID providerID with
  | (_, some err) => .ok ([], some err)
  | (p, none) =>
    if p.ManagedByVMAS then .ok (p.VMName, none)
    else
      match p.VMSSOrchestration with
      | .error msg => .error msg
      | .ok mode =>
        let looked : PanicOr (Option VirtualMachine × Option GoError) :=
          if mode.IsUniform then
            match p.UniformVMSSInstanceID with
            | .error msg => .error msg
            | .ok instanceID =>
              store.GetVMByVMSSAndInstanceID p.ResourceGroup p.VMSSName instanceID [UnsafeRead]
          else store.GetVMByVMSSAndName p.ResourceGroup p.VMSSName p.VMName [UnsafeRead]
        match looked with
        | .error msg => .error msg
        | .ok (_, some err) => .ok ([], some err)
        | .ok (none, none) => .error nilDereference
        | .ok (some vm, none) =>
          match vm.OSProfile with
          | some ⟨some computerName⟩ => .ok (ToLower computerName, none)
          | _ => .ok ([], none)

/-! ## Lemmas on the matcher -/

theorem matchFrom_chr_iff (c : Char) (r : List Item) (s : Str) (caps : List Str) :
    matchFrom (Item.chr c :: r) s = some caps ↔ ∃ t, s = c :: t ∧ matchFrom r t = some caps := by
  cases s with
  | nil => simp [matchFrom]
  | cons x xs =>
    by_cases h : x = c
    · subst h; simp [matchFrom]
    · simp [matchFrom, h]

theorem matchFrom_any_iff (r : List Item) (s : Str) (caps : List Str) :
    matchFrom (Item.any :: r) s = some caps ↔
      ∃ x t, s = x :: t ∧ x ≠ '\n' ∧ matchFrom r t = some caps := by
  cases s with
  | nil => simp [matchFrom]
  | cons x xs =>
    by_cases h : x = '\n'
    · subst h; simp [matchFrom]
    · simp only [matchFrom, bne_iff_ne, ne_eq, h, not_false_eq_true, if_true, List.cons.injEq]
      constructor
      · intro hm; exact ⟨x, xs, ⟨rfl, rfl⟩, h, hm⟩
      · rintro ⟨y, t, ⟨rfl, rfl⟩, _, hm⟩; exact hm

theorem matchFrom_lits_iff (l : Str) (r : List Item) (s : Str) (caps : List Str) :
    matchFrom (l.map Item.chr ++ r) s = some caps ↔
      ∃ t, s = l ++ t ∧ matchFrom r t = some caps := by
  induction l generalizing s with
  | nil => simp
  | cons c l ih =>
    simp only [List.map_cons, List.cons_append, matchFrom_chr_iff, ih]
    constructor
    · rintro ⟨t, rfl, u, rfl, h⟩; exact ⟨u, rfl, h⟩
    · rintro ⟨u, rfl, h⟩; exact ⟨l ++ u, rfl, u, rfl, h⟩

theorem matchRun_sound (p : Char → Bool) (k : Str → Option (List Str)) (s g : Str)
    (caps : List Str) (h : matchRun p k s = some (g, caps)) :
    (∀ x ∈ g, p x = true) ∧ ∃ t, s = g ++ t ∧ k t = some caps := by
  induction s generalizing g with
  | nil =>
    simp only [matchRun, Option.map_eq_some', Prod.mk.injEq] at h
    obtain ⟨c, hc, rfl, rfl⟩ := h
    exact ⟨by simp, [], rfl, hc⟩
  | cons x xs ih =>
    rw [matchRun] at h
    cases hp : p x with
    | false =>
      simp only [hp, Bool.false_eq_true, if_false, Option.map_eq_some', Prod.mk.injEq] at h
      obtain ⟨c, hc, rfl, rfl⟩ := h
      exact ⟨by simp, x :: xs, rfl, hc⟩
    | true =>
      simp only [hp, if_true] at h
      cases hr : matchRun p k xs with
      | none =>
        simp only [hr, Option.map_eq_some', Prod.mk.injEq] at h
        obtain ⟨c, hc, rfl, rfl⟩ := h
        exact ⟨by simp, x :: xs, rfl, hc⟩
      | some gc =>
        obtain ⟨g', caps'⟩ := gc
        simp only [hr, Option.some.injEq, Prod.mk.injEq] at h
        obtain ⟨rfl, rfl⟩ := h
        obtain ⟨hall, t, rfl, hk⟩ := ih g' hr
        refine ⟨?_, t, rfl, hk⟩
        intro y hy
        rcases List.mem_cons.mp hy with rfl | hy
        · exact hp
        · exact hall y hy

theorem matchRun_stop (p : Char → Bool) (k : Str → Option (List Str))
    (hk : ∀ x xs, p x = true → k (x :: xs) = none) (g t : Str)
    (hg : ∀ x ∈ g, p x = true) (ht : ∀ y t', t = y :: t' → p y = false) :
    matchRun p k (g ++ t) = (k t).map fun caps => (g, caps) := by
  induction g with
  | nil =>
    cases t with
    | nil => simp [matchRun]
    | cons y t' => simp [matchRun, ht y t' rfl]
  | cons x g ih =>
    have hx : p x = true := hg x (List.mem_cons_self _ _)
    have ih' := ih (fun y hy => hg y (List.mem_cons_of_mem _ hy))
    rw [List.cons_append, matchRun]
    simp only [hx, if_true]
    rw [ih', hk x (g ++ t) hx]
    cases k t <;> rfl

theorem matchFrom_group_iff (cls : Cls) (r : List Item) (s : Str) (caps : List Str)
    (hk : ∀ x xs, cls.test x = true → matchFrom r (x :: xs) = none) :
    matchFrom (Item.group cls :: r) s = some caps ↔
      ∃ g t caps', s = g ++ t ∧ g ≠ [] ∧ (∀ x ∈ g, cls.test x = true) ∧
        matchFrom r t = some caps' ∧ caps = g :: caps' := by
  constructor
  · intro h
    cases s with
    | nil => simp [matchFrom] at h
    | cons x xs =>
      cases hx : cls.test x with
      | false => simp [matchFrom, hx] at h
      | true =>
        simp only [matchFrom, hx, if_true, Option.map_eq_some'] at h
        obtain ⟨⟨g, caps'⟩, hr, rfl⟩ := h
        obtain ⟨hall, t, rfl, hm⟩ := matchRun_sound _ _ _ _ _ hr
        refine ⟨x :: g, t, caps', rfl, by simp, ?_, hm, rfl⟩
        intro y hy
        rcases List.mem_cons.mp hy with rfl | hy
        · exact hx
        · exact hall y hy
  · rintro ⟨g, t, caps', rfl, hg, hall, hm, rfl⟩
    cases g with
    | nil => exact absurd rfl hg
    | cons x g =>
      have hx : cls.test x = true := hall x (List.mem_cons_self _ _)
      have ht : ∀ y t', t = y :: t' → cls.test y = false := by
        intro y t' hyt
        cases hy : cls.test y with
        | false => rfl
        | true => rw [hyt, hk y t' hy] at hm; cases hm
      have hrun := matchRun_stop cls.test (matchFrom r) hk g t
        (fun y hy => hall y (List.mem_cons_of_mem _ hy)) ht
      simp [matchFrom, hx, hrun, hm]

theorem matchFrom_nil_cons (x : Char) (xs : Str) : matchFrom [] (x :: xs) = none := by
  simp [matchFrom]

theorem matchFrom_nil_iff (s : Str) (caps : List Str) :
    matchFrom [] s = some caps ↔ s = [] ∧ caps = [] := by
  cases s <;> simp [matchFrom, eq_comm]

theorem matchFrom_slash_lits_none (l : Str) (r : List Item) (hl : l.head? = some '/')
    (x : Char) (xs : Str) (hx : Cls.notSlash.test x = true) :
    matchFrom (l.map Item.chr ++ r) (x :: xs) = none := by
  cases l with
  | nil => simp at hl
  | cons c l =>
    simp only [List.head?_cons, Option.some.injEq] at hl
    subst hl
    have hne : x ≠ '/' := by simpa [Cls.test] using hx
    simp [matchFrom, hne]

theorem notSlash_all_iff (g : Str) : (∀ x ∈ g, Cls.notSlash.test x = true) ↔ '/' ∉ g := by
  simp only [Cls.test, bne_iff_ne, ne_eq]
  constructor
  · intro h hm; exact h _ hm rfl
  · intro h x hx hxe; exact h (hxe ▸ hx)

theorem dot_all_iff (g : Str) : (∀ x ∈ g, Cls.dot.test x = true) ↔ '\n' ∉ g := by
  simp only [Cls.test, bne_iff_ne, ne_eq]
  constructor
  · intro h hm; exact h _ hm rfl
  · intro h x hx hxe; exact h (hxe ▸ hx)

theorem matchFrom_group_end_iff (cls : Cls) (s : Str) (caps : List Str) :
    matchFrom [Item.group cls] s = some caps ↔
      s ≠ [] ∧ (∀ x ∈ s, cls.test x = true) ∧ caps = [s] := by
  rw [matchFrom_group_iff cls [] s caps (fun x xs _ => matchFrom_nil_cons x xs)]
  constructor
  · rintro ⟨g, t, caps', rfl, hg, hall, hm, rfl⟩
    obtain ⟨rfl, rfl⟩ := (matchFrom_nil_iff _ _).1 hm
    simpa using ⟨hg, hall⟩
  · rintro ⟨hs, hall, rfl⟩
    exact ⟨s, [], [], by simp, hs, hall, by simp [matchFrom], rfl⟩

theorem matchFrom_group_slash_iff (l : Str) (r : List Item) (hl : l.head? = some '/')
    (s : Str) (caps : List Str) :
    matchFrom (Item.group .notSlash :: (l.map Item.chr ++ r)) s = some caps ↔
      ∃ g t caps', s = g ++ (l ++ t) ∧ slashFree g ∧ matchFrom r t = some caps' ∧
        caps = g :: caps' := by
  rw [matchFrom_group_iff _ _ _ _ (matchFrom_slash_lits_none l r hl)]
  constructor
  · rintro ⟨g, t, caps', rfl, hg, hall, hm, rfl⟩
    obtain ⟨u, rfl, hu⟩ := (matchFrom_lits_iff _ _ _ _).1 hm
    exact ⟨g, u, caps', rfl, ⟨hg, (notSlash_all_iff g).1 hall⟩, hu, rfl⟩
  · rintro ⟨g, u, caps', rfl, ⟨hg, hns⟩, hu, rfl⟩
    exact ⟨g, l ++ u, caps', rfl, hg, (notSlash_all_iff g).2 hns,
      (matchFrom_lits_iff _ _ _ _).2 ⟨u, rfl, hu⟩, rfl⟩

theorem vmRegexp_eq : vmRegexp =
    "azure:///subscriptions/".toList.map Item.chr ++ (Item.group .notSlash ::
    ("/resourceGroups/".toList.map Item.chr ++ (Item.group .notSlash ::
    ("/providers/Microsoft".toList.map Item.chr ++ (Item.any ::
    ("Compute/virtualMachines/".toList.map Item.chr ++ [Item.group .dot])))))) := by
  rfl

theorem vmssRegexp_eq : vmssRegexp =
    "azure:///subscriptions/".toList.map Item.chr ++ (Item.group .notSlash ::
    ("/resourceGroups/".toList.map Item.chr ++ (Item.group .notSlash ::
    ("/providers/Microsoft".toList.map Item.chr ++ (Item.any ::
    ("Compute/virtualMachineScaleSets/".toList.map Item.chr ++ (Item.group .notSlash ::
    ("/virtualMachines/".toList.map Item.chr ++ [Item.group .notSlash])))))))) := by
  rfl

/-- What `vmRegexp` accepts, and what it captures. -/
theorem vmRegexp_iff (s : Str) (caps : List Str) :
    matchFrom vmRegexp s = some caps ↔
      ∃ g1 g2 c g3, s = "azure:///subscriptions/".toList ++ (g1 ++ ("/resourceGroups/".toList ++
          (g2 ++ ("/providers/Microsoft".toList ++ (c :: ("Compute/virtualMachines/".toList ++
            g3)))))) ∧
        slashFree g1 ∧ slashFree g2 ∧ c ≠ '\n' ∧ g3 ≠ [] ∧ '\n' ∉ g3 ∧ caps = [g1, g2, g3] := by
  rw [vmRegexp_eq]
  constructor
  · intro h
    obtain ⟨t1, rfl, h1⟩ := (matchFrom_lits_iff _ _ _ _).1 h
    obtain ⟨g1, t2, c1, rfl, hg1, h2, rfl⟩ := (matchFrom_group_slash_iff "/resourceGroups/".toList _ rfl _ _).1 h1
    obtain ⟨g2, t3, c2, rfl, hg2, h3, rfl⟩ := (matchFrom_group_slash_iff "/providers/Microsoft".toList _ rfl _ _).1 h2
    obtain ⟨c, t4, rfl, hc, h4⟩ := (matchFrom_any_iff _ _ _).1 h3
    obtain ⟨t5, rfl, h5⟩ := (matchFrom_lits_iff _ _ _ _).1 h4
    obtain ⟨hne, hall, rfl⟩ := (matchFrom_group_end_iff _ _ _).1 h5
    exact ⟨g1, g2, c, t5, rfl, hg1, hg2, hc, hne, (dot_all_iff _).1 hall, rfl⟩
  · rintro ⟨g1, g2, c, g3, rfl, hg1, hg2, hc, hne, hnl, rfl⟩
    refine (matchFrom_lits_iff _ _ _ _).2 ⟨_, rfl, ?_⟩
    refine (matchFrom_group_slash_iff "/resourceGroups/".toList _ rfl _ _).2 ⟨g1, _, _, rfl, hg1, ?_, rfl⟩
    refine (matchFrom_group_slash_iff "/providers/Microsoft".toList _ rfl _ _).2 ⟨g2, _, _, rfl, hg2, ?_, rfl⟩
    refine (matchFrom_any_iff _ _ _).2 ⟨c, _, rfl, hc, ?_⟩
    refine (matchFrom_lits_iff _ _ _ _).2 ⟨_, rfl, ?_⟩
    exact (matchFrom_group_end_iff _ _ _).2 ⟨hne, (dot_all_iff _).2 hnl, rfl⟩

/-- What `vmssRegexp` accepts, and what it captures. -/
theorem vmssRegexp_iff (s : Str) (caps : List Str) :
    matchFrom vmssRegexp s = some caps ↔
      ∃ g1 g2 c g3 g4, s = "azure:///subscriptions/".toList ++ (g1 ++
          ("/resourceGroups/".toList ++ (g2 ++ ("/providers/Microsoft".toList ++
            (c :: ("Compute/virtualMachineScaleSets/".toList ++ (g3 ++
              ("/virtualMachines/".toList ++ g4)))))))) ∧
        slashFree g1 ∧ slashFree g2 ∧ c ≠ '\n' ∧ slashFree g3 ∧ slashFree g4 ∧
        caps = [g1, g2, g3, g4] := by
  rw [vmssRegexp_eq]
  constructor
  · intro h
    obtain ⟨t1, rfl, h1⟩ := (matchFrom_lits_iff _ _ _ _).1 h
    obtain ⟨g1, t2, c1, rfl, hg1, h2, rfl⟩ := (matchFrom_group_slash_iff "/resourceGroups/".toList _ rfl _ _).1 h1
    obtain ⟨g2, t3, c2, rfl, hg2, h3, rfl⟩ := (matchFrom_group_slash_iff "/providers/Microsoft".toList _ rfl _ _).1 h2
    obtain ⟨c, t4, rfl, hc, h4⟩ := (matchFrom_any_iff _ _ _).1 h3
    obtain ⟨t5, rfl, h5⟩ := (matchFrom_lits_iff _ _ _ _).1 h4
    obtain ⟨g3, t6, c3, rfl, hg3, h6, rfl⟩ := (matchFrom_group_slash_iff "/virtualMachines/".toList _ rfl _ _).1 h5
    obtain ⟨hne, hall, rfl⟩ := (matchFrom_group_end_iff _ _ _).1 h6
    exact ⟨g1, g2, c, g3, t6, rfl, hg1, hg2, hc, hg3, ⟨hne, (notSlash_all_iff _).1 hall⟩, rfl⟩
  · rintro ⟨g1, g2, c, g3, g4, rfl, hg1, hg2, hc, hg3, ⟨hne, hns⟩, rfl⟩
    refine (matchFrom_lits_iff _ _ _ _).2 ⟨_, rfl, ?_⟩
    refine (matchFrom_group_slash_iff "/resourceGroups/".toList _ rfl _ _).2 ⟨g1, _, _, rfl, hg1, ?_, rfl⟩
    refine (matchFrom_group_slash_iff "/providers/Microsoft".toList _ rfl _ _).2 ⟨g2, _, _, rfl, hg2, ?_, rfl⟩
    refine (matchFrom_any_iff _ _ _).2 ⟨c, _, rfl, hc, ?_⟩
    refine (matchFrom_lits_iff _ _ _ _).2 ⟨_, rfl, ?_⟩
    refine (matchFrom_group_slash_iff "/virtualMachines/".toList _ rfl _ _).2 ⟨g3, _, _, rfl, hg3, ?_, rfl⟩
    exact (matchFrom_group_end_iff _ _ _).2 ⟨hne, (notSlash_all_iff _).2 hns, rfl⟩

theorem seg_unique (a : Char) (g g' l t t' : Str) (hl : l.head? = some a)
    (hg : a ∉ g) (hg' : a ∉ g') (h : g ++ (l ++ t) = g' ++ (l ++ t')) :
    g = g' ∧ t = t' := by
  cases l with
  | nil => simp at hl
  | cons c l =>
    simp only [List.head?_cons, Option.some.injEq] at hl
    subst hl
    induction g generalizing g' with
    | nil =>
      cases g' with
      | nil => simpa using h
      | cons y g' =>
        simp only [List.nil_append, List.cons_append, List.cons.injEq] at h
        exact absurd (h.1 ▸ List.mem_cons_self _ _) hg'
    | cons x g ih =>
      cases g' with
      | nil =>
        simp only [List.nil_append, List.cons_append, List.cons.injEq] at h
        exact absurd (h.1 ▸ List.mem_cons_self _ _) hg
      | cons y g' =>
        simp only [List.cons_append, List.cons.injEq] at h
        obtain ⟨rfl, h⟩ := h
        have hgt : c ∉ g := fun hm => hg (List.mem_cons_of_mem _ hm)
        have hgt' : c ∉ g' := fun hm => hg' (List.mem_cons_of_mem _ hm)
        have key : g = g' ∧ t = t' := by apply ih <;> assumption
        exact ⟨by rw [key.1], key.2⟩

/-- No string is accepted by both patterns. -/
theorem vmRegexp_vmssRegexp_disjoint (s : Str) (c1 : List Str)
    (h : matchFrom vmRegexp s = some c1) : matchFrom vmssRegexp s = none := by
  rw [Option.eq_none_iff_forall_not_mem]
  intro c2 h2
  obtain ⟨a1, a2, c, a3, hs, ha1, ha2, -, -, -, -⟩ := (vmRegexp_iff s c1).1 h
  obtain ⟨b1, b2, d, b3, b4, hs', hb1, hb2, -, -, -, -⟩ := (vmssRegexp_iff s c2).1 h2
  rw [hs] at hs'
  have e1 := List.append_cancel_left hs'
  obtain ⟨-, e2⟩ := seg_unique '/' a1 b1 "/resourceGroups/".toList _ _ rfl ha1.2 hb1.2 e1
  obtain ⟨-, e3⟩ := seg_unique '/' a2 b2 "/providers/Microsoft".toList _ _ rfl ha2.2 hb2.2 e2
  simp at e3

theorem parse_of_vm (s a b c : Str) (h : matchFrom vmRegexp s = some [a, b, c]) :
    ParseProviderID s =
      ({ VMManage := VMAS, SubscriptionID := a, ResourceGroup := b, VMSSName := [],
         VMName := c }, none) := by
  simp [ParseProviderID, FindStringSubmatch, h]

theorem parse_of_vmss (s a b c d : Str) (h : matchFrom vmssRegexp s = some [a, b, c, d]) :
    ParseProviderID s =
      ({ VMManage := VMSS, SubscriptionID := a, ResourceGroup := b, VMSSName := c,
         VMName := d }, none) := by
  have hvm : matchFrom vmRegexp s = none := by
    cases hm : matchFrom vmRegexp s with
    | none => rfl
    | some c1 => rw [vmRegexp_vmssRegexp_disjoint s c1 hm] at h; cases h
  simp [ParseProviderID, FindStringSubmatch, h, hvm]

theorem parse_of_none (s : Str) (h1 : matchFrom vmRegexp s = none)
    (h2 : matchFrom vmssRegexp s = none) :
    ParseProviderID s = (ProviderID.zero, some "invalid provider id".toList) := by
  simp [ParseProviderID, FindStringSubmatch, h1, h2]

/-- The three outcomes of `ParseProviderID`, by which pattern accepts the input. -/
theorem parse_cases (s : Str) :
    (∃ a b c, matchFrom vmRegexp s = some [a, b, c] ∧ matchFrom vmssRegexp s = none ∧
        ParseProviderID s = (⟨VMAS, a, b, [], c⟩, none)) ∨
    (∃ a b c d, matchFrom vmRegexp s = none ∧ matchFrom vmssRegexp s = some [a, b, c, d] ∧
        slashFree c ∧ ParseProviderID s = (⟨VMSS, a, b, c, d⟩, none)) ∨
    (matchFrom vmRegexp s = none ∧ matchFrom vmssRegexp s = none ∧
        ParseProviderID s = (ProviderID.zero, some "invalid provider id".toList)) := by
  cases h1 : matchFrom vmRegexp s with
  | some c1 =>
    left
    obtain ⟨a, b, _, c, -, -, -, -, -, -, rfl⟩ := (vmRegexp_iff s c1).1 h1
    exact ⟨a, b, c, rfl, vmRegexp_vmssRegexp_disjoint s _ h1, parse_of_vm s a b c h1⟩
  | none =>
    right
    cases h2 : matchFrom vmssRegexp s with
    | some c2 =>
      left
      obtain ⟨a, b, _, c, d, -, -, -, -, hc, -, rfl⟩ := (vmssRegexp_iff s c2).1 h2
      exact ⟨a, b, c, d, rfl, rfl, hc, parse_of_vmss s a b c d h2⟩
    | none =>
      right
      exact ⟨rfl, rfl, parse_of_none s h1 h2⟩

theorem validSegment_slashFree (g : Str) (h : validSegment g) : slashFree g := ⟨h.1, h.2.1⟩

theorem matchFrom_vmRegexp_asWire (sub rg vm : Str) (hsub : slashFree sub) (hrg : slashFree rg)
    (hvm : vm ≠ []) (hnl : '\n' ∉ vm) :
    matchFrom vmRegexp (asWire sub rg vm) = some [sub, rg, vm] :=
  (vmRegexp_iff _ _).2 ⟨sub, rg, '.', vm, rfl, hsub, hrg, by decide, hvm, hnl, rfl⟩

theorem matchFrom_vmssRegexp_vmssWire (sub rg ss vm : Str) (hsub : slashFree sub)
    (hrg : slashFree rg) (hss : slashFree ss) (hvm : slashFree vm) :
    matchFrom vmssRegexp (vmssWire sub rg ss vm) = some [sub, rg, ss, vm] :=
  (vmssRegexp_iff _ _).2 ⟨sub, rg, '.', ss, vm, rfl, hsub, hrg, by decide, hss, hvm, rfl⟩

theorem parse_asWire (sub rg vm : Str) (hsub : slashFree sub) (hrg : slashFree rg)
    (hvm : vm ≠ []) (hnl : '\n' ∉ vm) :
    ParseProviderID (asWire sub rg vm) = (⟨VMAS, sub, rg, [], vm⟩, none) :=
  parse_of_vm _ _ _ _ (matchFrom_vmRegexp_asWire sub rg vm hsub hrg hvm hnl)

theorem parse_vmssWire (sub rg ss vm : Str) (hsub : slashFree sub) (hrg : slashFree rg)
    (hss : slashFree ss) (hvm : slashFree vm) :
    ParseProviderID (vmssWire sub rg ss vm) = (⟨VMSS, sub, rg, ss, vm⟩, none) :=
  parse_of_vmss _ _ _ _ _ (matchFrom_vmssRegexp_vmssWire sub rg ss vm hsub hrg hss hvm)

theorem String_vmas (sub rg ss vm : Str) :
    ProviderID.String ⟨VMAS, sub, rg, ss, vm⟩ = asWire sub rg vm := by
  simp [ProviderID.String, ProviderID.ManagedByVMAS, asWire]

theorem String_vmss (sub rg ss vm : Str) :
    ProviderID.String ⟨VMSS, sub, rg, ss, vm⟩ = vmssWire sub rg ss vm := by
  have h : (VMSS == VMAS) = false := by decide
  simp [ProviderID.String, ProviderID.ManagedByVMAS, vmssWire, h]

/-! ## Lemmas on `Split` and `HasPrefix` -/

theorem Split_ne_nil (sep : Char) (s : Str) : Split sep s ≠ [] := by
  induction s with
  | nil => simp [Split]
  | cons c cs ih =>
    rw [Split]
    split
    · simp
    · split <;> simp

theorem Split_noSep (sep : Char) (n : Str) (h : sep ∉ n) : Split sep n = [n] := by
  induction n with
  | nil => rfl
  | cons c cs ih =>
    have hc : c ≠ sep := fun e => h (e ▸ List.mem_cons_self _ _)
    have hcs : sep ∉ cs := fun hm => h (List.mem_cons_of_mem _ hm)
    rw [Split, if_neg hc, ih hcs]

theorem Split_append_sep (sep : Char) (a b : Str) :
    Split sep (a ++ sep :: b) = Split sep a ++ Split sep b := by
  induction a with
  | nil => simp [Split]
  | cons c cs ih =>
    by_cases hc : c = sep
    · simp [Split, hc, ih]
    · rw [List.cons_append, Split, if_neg hc, ih, Split, if_neg hc]
      cases hs : Split sep cs with
      | nil => exact absurd hs (Split_ne_nil sep cs)
      | cons h t => rfl

theorem HasPrefix_append (a b : Str) : HasPrefix (a ++ b) a = true := by
  simp [HasPrefix]

/-! ## Lemmas on `FromVirtualMachine` -/

theorem foldl_opts_snoc (opts : List ManageOption) (o : ManageOption) (v : VirtualMachine) :
    (opts ++ [o]).foldl (fun acc opt => opt acc) v = o (opts.foldl (fun acc opt => opt acc) v) := by
  simp [List.foldl_append]

theorem referencedID_eq_some (r : Option SubResource) (id : Str)
    (h : referencedID r = some id) : r = some ⟨some id⟩ := by
  unfold referencedID at h
  split at h
  · simp only [Option.some.injEq] at h; subst h; rfl
  · cases h

theorem lastSegment_append (a n : Str) (h : '/' ∉ n) : lastSegment (a ++ '/' :: n) = n := by
  simp [lastSegment, Split_append_sep, Split_noSep '/' n h]

/-! ## Lemmas on the VM store -/

theorem vmByNameScan_spec (name : Str) (l : List (Option VMSetStoreVMEntry))
    (vms : List VirtualMachine) (hl : l.map entryVM = vms.map some) :
    vmByNameScan name l =
      match vms.find? fun v => v.Name == name with
      | some v => .ok (.vm (some v), none)
      | none => .ok (.nil, some ErrVMSetStoreCacheMiss) := by
  induction l generalizing vms with
  | nil =>
    cases vms with
    | nil => rfl
    | cons v vs => simp at hl
  | cons e l ih =>
    cases vms with
    | nil => simp at hl
    | cons v vs =>
      simp only [List.map_cons, List.cons.injEq] at hl
      obtain ⟨he, hrest⟩ := hl
      cases e with
      | none => simp [entryVM] at he
      | some entry =>
        have hvm : entry.VM = some v := he
        by_cases hn : v.Name = name
        · simp [vmByNameScan, hvm, hn, List.find?]
        · have hb : (v.Name == name) = false := by simpa using hn
          simp only [vmByNameScan, hvm, hn, if_false, List.find?, hb]
          exact ih vs hrest

/-! ## Lemmas on the scale-set and availability-set loaders -/

theorem syncMapLoad_nil (k : Str) : syncMapLoad [] k = none := rfl

theorem syncMapLoad_store (m : List (Str × Dyn)) (k k' : Str) (v : Dyn) :
    syncMapLoad (syncMapStore m k v) k' = if k' = k then some v else syncMapLoad m k' := by
  induction m with
  | nil =>
    by_cases h : k' = k
    · subst h; simp [syncMapStore, syncMapLoad]
    · have h' : ¬ k = k' := fun e => h e.symm
      simp [syncMapStore, syncMapLoad, h, h']
  | cons kv m ih =>
    obtain ⟨a, d⟩ := kv
    by_cases hak : a = k
    · subst hak
      by_cases h : k' = a
      · subst h; simp [syncMapStore, syncMapLoad]
      · have h' : ¬ a = k' := fun e => h e.symm
        simp [syncMapStore, syncMapLoad, h, h']
    · by_cases h : k' = k
      · subst h
        have hb : (a == k') = false := by simpa using hak
        have ih' : syncMapLoad (syncMapStore m k' v) k' = some v := by simpa using ih
        simp only [syncMapStore, hak, if_false, if_true]
        simpa [syncMapLoad, List.find?, hb] using ih'
      · have ih' : syncMapLoad (syncMapStore m k v) k' = syncMapLoad m k' := by simpa [h] using ih
        simp only [syncMapStore, hak, if_false, h]
        by_cases hak' : a = k'
        · subst hak'; simp [syncMapLoad, List.find?]
        · have hb : (a == k') = false := by simpa using hak'
          simpa [syncMapLoad, List.find?, hb] using ih'

theorem lastNamed_cons {α : Type} (nameOf : α → Option Str) (k : Str) (x : α) (rest : List α) :
    lastNamed nameOf k (x :: rest) =
      match lastNamed nameOf k rest with
      | some y => some y
      | none => if (nameOf x == some k && k != []) = true then some x else none := by
  unfold lastNamed
  rw [List.filter_cons]
  by_cases hx : (nameOf x == some k && k != []) = true
  · rw [if_pos hx, List.getLast?_cons]
    cases hr : (List.filter (fun a => nameOf a == some k && k != []) rest).getLast? with
    | none => simp [hx]
    | some y => simp
  · rw [if_neg hx]
    cases hr : (List.filter (fun a => nameOf a == some k && k != []) rest).getLast? with
    | none => simp [hx]
    | some y => simp

theorem lastNamed_ne_none_iff {α : Type} (nameOf : α → Option Str) (k : Str) (l : List α) :
    lastNamed nameOf k l ≠ none ↔ k ≠ [] ∧ ∃ a ∈ l, nameOf a = some k := by
  unfold lastNamed
  rw [ne_eq, List.getLast?_eq_none_iff, List.filter_eq_nil_iff]
  constructor
  · intro h
    by_contra hc
    apply h
    intro a ha hp
    simp only [Bool.and_eq_true, beq_iff_eq, bne_iff_ne, ne_eq] at hp
    exact hc ⟨hp.2, a, ha, hp.1⟩
  · rintro ⟨hk, a, ha, hn⟩ h
    exact h a ha (by simp [hn, hk])

theorem vmssLoaderLoop_spec (rg : Str) (clock : Nat → Time)
    (rest : List RawVirtualMachineScaleSet) (i : Nat) (m : List (Str × Dyn)) :
    ∃ m', vmssLoaderLoop rg clock rest i m = .ok m' ∧ ∀ k,
      (lastNamed (fun sc => sc.Name) k rest = none → syncMapLoad m' k = syncMapLoad m k) ∧
      (∀ sc, lastNamed (fun sc => sc.Name) k rest = some sc →
        ∃ t, syncMapLoad m' k = some (.vmssEntry (some ⟨rg, some sc, t⟩))) := by
  induction rest generalizing i m with
  | nil => exact ⟨m, rfl, fun k => ⟨fun _ => rfl, fun sc h => by simp [lastNamed] at h⟩⟩
  | cons x rest ih =>
    cases hname : x.Name with
    | none =>
      obtain ⟨m', hm', hk⟩ := ih (i + 1) m
      refine ⟨m', by simp [vmssLoaderLoop, hname, to_String, hm'], fun k => ?_⟩
      have hl : lastNamed (fun sc => sc.Name) k (x :: rest) =
          lastNamed (fun sc => sc.Name) k rest := by
        rw [lastNamed_cons]
        cases lastNamed (fun sc => sc.Name) k rest <;> simp [hname]
      rw [hl]
      exact hk k
    | some name =>
      by_cases hempty : name = []
      · obtain ⟨m', hm', hk⟩ := ih (i + 1) m
        refine ⟨m', by simp [vmssLoaderLoop, hname, to_String, hempty, hm'], fun k => ?_⟩
        have hl : lastNamed (fun sc => sc.Name) k (x :: rest) =
            lastNamed (fun sc => sc.Name) k rest := by
          rw [lastNamed_cons]
          cases lastNamed (fun sc => sc.Name) k rest with
          | some y => rfl
          | none =>
            by_cases hkn : k = []
            · simp [hkn]
            · have : ¬ name = k := fun e => hkn (e ▸ hempty)
              simp [hname, this]
        rw [hl]
        exact hk k
      · obtain ⟨m', hm', hk⟩ := ih (i + 1)
          (syncMapStore m name (.vmssEntry (some ⟨rg, some x, clock i⟩)))
        refine ⟨m', by simp [vmssLoaderLoop, hname, to_String, hempty, hm'], fun k => ?_⟩
        rw [lastNamed_cons]
        cases hr : lastNamed (fun sc => sc.Name) k rest with
        | some y =>
          refine ⟨fun h => by simp at h, fun sc hsc => ?_⟩
          simp only [Option.some.injEq] at hsc
          subst hsc
          exact (hk k).2 y hr
        | none =>
          have hload := (hk k).1 hr
          rw [syncMapLoad_store] at hload
          by_cases hkn : k = name
          · subst hkn
            have hpass : (x.Name == some k && k != []) = true := by simp [hname, hempty]
            simp only [hpass, if_true]
            refine ⟨fun h => by simp at h, fun sc hsc => ?_⟩
            simp only [Option.some.injEq] at hsc
            subst hsc
            exact ⟨clock i, by simpa using hload⟩
          · have hfail : ¬ (x.Name == some k && k != []) = true := by
              have : ¬ name = k := fun e => hkn e.symm
              simp [hname, this]
            simp only [hfail, if_false]
            refine ⟨fun _ => by simpa [hkn] using hload, fun sc hsc => by simp at hsc⟩

theorem vmasLoaderLoop_spec (rg : Str) (clock : Nat → Time)
    (rest : List RawAvailabilitySet) (i : Nat) (m : List (Str × Dyn)) :
    ∃ m', vmasLoaderLoop rg clock rest i m = .ok m' ∧ ∀ k,
      (lastNamed (fun sc => sc.Name) k rest = none → syncMapLoad m' k = syncMapLoad m k) ∧
      (∀ sc, lastNamed (fun sc => sc.Name) k rest = some sc →
        ∃ t, syncMapLoad m' k = some (.vmasEntry (some ⟨rg, some sc, t⟩))) := by
  induction rest generalizing i m with
  | nil => exact ⟨m, rfl, fun k => ⟨fun _ => rfl, fun sc h => by simp [lastNamed] at h⟩⟩
  | cons x rest ih =>
    cases hname : x.Name with
    | none =>
      obtain ⟨m', hm', hk⟩ := ih (i + 1) m
      refine ⟨m', by simp [vmasLoaderLoop, hname, hm'], fun k => ?_⟩
      have hl : lastNamed (fun sc => sc.Name) k (x :: rest) =
          lastNamed (fun sc => sc.Name) k rest := by
        rw [lastNamed_cons]
        cases lastNamed (fun sc => sc.Name) k rest <;> simp [hname]
      rw [hl]
      exact hk k
    | some name =>
      by_cases hempty : name = []
      · obtain ⟨m', hm', hk⟩ := ih (i + 1) m
        refine ⟨m', by simp [vmasLoaderLoop, hname, hempty, hm'], fun k => ?_⟩
        have hl : lastNamed (fun sc => sc.Name) k (x :: rest) =
            lastNamed (fun sc => sc.Name) k rest := by
          rw [lastNamed_cons]
          cases lastNamed (fun sc => sc.Name) k rest with
          | some y => rfl
          | none =>
            by_cases hkn : k = []
            · simp [hkn]
            · have : ¬ name = k := fun e => hkn (e ▸ hempty)
              simp [hname, this]
        rw [hl]
        exact hk k
      · obtain ⟨m', hm', hk⟩ := ih (i + 1)
          (syncMapStore m name (.vmasEntry (some ⟨rg, some x, clock i⟩)))
        refine ⟨m', by simp [vmasLoaderLoop, hname, hempty, hm'], fun k => ?_⟩
        rw [lastNamed_cons]
        cases hr : lastNamed (fun sc => sc.Name) k rest with
        | some y =>
          refine ⟨fun h => by simp at h, fun sc hsc => ?_⟩
          simp only [Option.some.injEq] at hsc
          subst hsc
          exact (hk k).2 y hr
        | none =>
          have hload := (hk k).1 hr
          rw [syncMapLoad_store] at hload
          by_cases hkn : k = name
          · subst hkn
            have hpass : (x.Name == some k && k != []) = true := by simp [hname, hempty]
            simp only [hpass, if_true]
            refine ⟨fun h => by simp at h, fun sc hsc => ?_⟩
            simp only [Option.some.injEq] at hsc
            subst hsc
            exact ⟨clock i, by simpa using hload⟩
          · have hfail : ¬ (x.Name == some k && k != []) = true := by
              have : ¬ name = k := fun e => hkn e.symm
              simp [hname, this]
            simp only [hfail, if_false]
            refine ⟨fun _ => by simpa [hkn] using hload, fun sc hsc => by simp at hsc⟩

/-! ## Claims on `ParseProviderID` -/

/-- C1: for every identifier of one of the two wire formats whose segments are non-empty
and contain neither `/` nor a line feed, `ParseProviderID` succeeds and `String` of the
result is the identifier itself. -/
theorem C1_parse_string_roundtrip (sub rg ss vm : Str) (hsub : validSegment sub)
    (hrg : validSegment rg) (hss : validSegment ss) (hvm : validSegment vm) :
    ((ParseProviderID (asWire sub rg vm)).2 = none ∧
      (ParseProviderID (asWire sub rg vm)).1.String = asWire sub rg vm) ∧
    ((ParseProviderID (vmssWire sub rg ss vm)).2 = none ∧
      (ParseProviderID (vmssWire sub rg ss vm)).1.String = vmssWire sub rg ss vm) := by
  have h1 := parse_asWire sub rg vm (validSegment_slashFree _ hsub)
    (validSegment_slashFree _ hrg) hvm.1 hvm.2.2
  have h2 := parse_vmssWire sub rg ss vm (validSegment_slashFree _ hsub)
    (validSegment_slashFree _ hrg) (validSegment_slashFree _ hss) (validSegment_slashFree _ hvm)
  rw [h1, h2]
  exact ⟨⟨rfl, String_vmas _ _ _ _⟩, ⟨rfl, String_vmss _ _ _ _⟩⟩

/-- Witness of C1 at the segments `S`, `RG`, `ss1`, `vm1`. -/
theorem C1_parse_string_roundtrip_witness :
    (validSegment "S".toList ∧ validSegment "RG".toList ∧ validSegment "ss1".toList ∧
      validSegment "vm1".toList) ∧
    ((ParseProviderID (asWire "S".toList "RG".toList "vm1".toList)).2 = none ∧
      (ParseProviderID (asWire "S".toList "RG".toList "vm1".toList)).1.String =
        asWire "S".toList "RG".toList "vm1".toList) ∧
    ((ParseProviderID (vmssWire "S".toList "RG".toList "ss1".toList "vm1".toList)).2 = none ∧
      (ParseProviderID (vmssWire "S".toList "RG".toList "ss1".toList "vm1".toList)).1.String =
        vmssWire "S".toList "RG".toList "ss1".toList "vm1".toList) :=
  ⟨by decide, C1_parse_string_roundtrip _ _ _ _ (by decide) (by decide) (by decide) (by decide)⟩

/-- C2: the empty string, `azure:///` and an identifier with an empty segment are rejected
with the zero `ProviderID`, but an identifier whose provider path is `MicrosoftXCompute`
is accepted: the `.` of `Microsoft.Compute` in both patterns matches any character. -/
theorem C2_provider_path_dot_accepts_any_char :
    ParseProviderID [] = (ProviderID.zero, some "invalid provider id".toList) ∧
    ParseProviderID "azure:///".toList = (ProviderID.zero, some "invalid provider id".toList) ∧
    ParseProviderID
        "azure:///subscriptions//resourceGroups/RG/providers/Microsoft.Compute/virtualMachines/vm1".toList =
      (ProviderID.zero, some "invalid provider id".toList) ∧
    ParseProviderID
        "azure:///subscriptions/S/resourceGroups/RG/providers/MicrosoftXCompute/virtualMachines/vm1".toList =
      (⟨VMAS, "S".toList, "RG".toList, [], "vm1".toList⟩, none) := by
  decide

/-- C3: an AS-shaped identifier parses to its three segments with an empty `VMSSName` and
`ManagedByVMAS`; a scale-set-shaped identifier parses to its four segments with
`ManagedByVMSS`; and on every successful parse `ManagedByVMSS` holds exactly when the
scale-set pattern is the one that matched, and exactly one of `ManagedByVMAS` and
`ManagedByVMSS` holds. -/
theorem C3_parse_fields_and_manage (sub rg ss vm s : Str) (hsub : validSegment sub)
    (hrg : validSegment rg) (hss : validSegment ss) (hvm : validSegment vm)
    (hs : (ParseProviderID s).2 = none) :
    (ParseProviderID (asWire sub rg vm) = (⟨VMAS, sub, rg, [], vm⟩, none) ∧
      (ParseProviderID (asWire sub rg vm)).1.ManagedByVMAS = true) ∧
    (ParseProviderID (vmssWire sub rg ss vm) = (⟨VMSS, sub, rg, ss, vm⟩, none) ∧
      (ParseProviderID (vmssWire sub rg ss vm)).1.ManagedByVMSS = true) ∧
    ((ParseProviderID s).1.ManagedByVMSS = true ↔ matchFrom vmssRegexp s ≠ none) ∧
    ((ParseProviderID s).1.ManagedByVMSS = true ↔ (ParseProviderID s).1.VMSSName ≠ []) ∧
    ((ParseProviderID s).1.ManagedByVMAS = !(ParseProviderID s).1.ManagedByVMSS) := by
  have h1 := parse_asWire sub rg vm (validSegment_slashFree _ hsub)
    (validSegment_slashFree _ hrg) hvm.1 hvm.2.2
  have h2 := parse_vmssWire sub rg ss vm (validSegment_slashFree _ hsub)
    (validSegment_slashFree _ hrg) (validSegment_slashFree _ hss) (validSegment_slashFree _ hvm)
  refine ⟨⟨h1, by rw [h1]; simp [ProviderID.ManagedByVMAS]⟩,
    ⟨h2, by rw [h2]; simp [ProviderID.ManagedByVMSS]⟩, ?_⟩
  have hne : (VMAS == VMSS) = false := by decide
  have hne' : (VMSS == VMAS) = false := by decide
  rcases parse_cases s with ⟨a, b, c, -, hn, hp⟩ | ⟨a, b, c, d, -, hm, hc, hp⟩ | ⟨-, -, hp⟩
  · rw [hp]
    simp [ProviderID.ManagedByVMSS, ProviderID.ManagedByVMAS, hne, hn]
  · rw [hp]
    simp [ProviderID.ManagedByVMSS, ProviderID.ManagedByVMAS, hne', hm, hc.1]
  · rw [hp] at hs
    cases hs

/-- Witness of C3 at the segments `S`, `RG`, `ss1`, `vm1` and the scale-set identifier. -/
theorem C3_parse_fields_and_manage_witness :
    (ParseProviderID (asWire "S".toList "RG".toList "vm1".toList) =
        (⟨VMAS, "S".toList, "RG".toList, [], "vm1".toList⟩, none) ∧
      (ParseProviderID (asWire "S".toList "RG".toList "vm1".toList)).1.ManagedByVMAS = true) ∧
    (ParseProviderID (vmssWire "S".toList "RG".toList "ss1".toList "vm1".toList) =
        (⟨VMSS, "S".toList, "RG".toList, "ss1".toList, "vm1".toList⟩, none) ∧
      (ParseProviderID
        (vmssWire "S".toList "RG".toList "ss1".toList "vm1".toList)).1.ManagedByVMSS = true) ∧
    ((ParseProviderID
        (vmssWire "S".toList "RG".toList "ss1".toList "vm1".toList)).1.ManagedByVMSS = true ↔
      matchFrom vmssRegexp (vmssWire "S".toList "RG".toList "ss1".toList "vm1".toList) ≠ none) ∧
    ((ParseProviderID
        (vmssWire "S".toList "RG".toList "ss1".toList "vm1".toList)).1.ManagedByVMSS = true ↔
      (ParseProviderID
        (vmssWire "S".toList "RG".toList "ss1".toList "vm1".toList)).1.VMSSName ≠ []) ∧
    ((ParseProviderID
        (vmssWire "S".toList "RG".toList "ss1".toList "vm1".toList)).1.ManagedByVMAS =
      !(ParseProviderID
        (vmssWire "S".toList "RG".toList "ss1".toList "vm1".toList)).1.ManagedByVMSS) :=
  C3_parse_fields_and_manage "S".toList "RG".toList "ss1".toList "vm1".toList
    (vmssWire "S".toList "RG".toList "ss1".toList "vm1".toList)
    (by decide) (by decide) (by decide) (by decide) (by decide)

/-! ## Claims on the orchestration mode -/

/-- C4, as stated, fails: for scale set `ss1` the VM names `ss1_abc` and `ss1_` give the
mode `Uniform` although the suffix is not numeric, respectively empty. -/
theorem C4_uniform_without_numeric_suffix :
    ((ProviderID.mk VMSS "S".toList "RG".toList "ss1".toList "ss1_abc".toList).ManagedByVMSS = true ∧
      (ProviderID.mk VMSS "S".toList "RG".toList "ss1".toList "ss1_abc".toList).VMSSOrchestration =
        .ok Uniform ∧
      ¬ specUniformName
        (ProviderID.mk VMSS "S".toList "RG".toList "ss1".toList "ss1_abc".toList)) ∧
    ((ProviderID.mk VMSS "S".toList "RG".toList "ss1".toList "ss1_".toList).ManagedByVMSS = true ∧
      (ProviderID.mk VMSS "S".toList "RG".toList "ss1".toList "ss1_".toList).VMSSOrchestration =
        .ok Uniform ∧
      ¬ specUniformName (ProviderID.mk VMSS "S".toList "RG".toList "ss1".toList "ss1_".toList)) := by
  refine ⟨⟨by decide, rfl, ?_⟩, ⟨by decide, rfl, ?_⟩⟩
  · rintro ⟨n, -, hd, hn⟩
    have hn' : n = "abc".toList := by simpa using hn.symm
    subst hn'
    have := hd 'a' (by decide)
    revert this
    decide
  · rintro ⟨n, hne, -, hn⟩
    have hn' : n = [] := by simpa using hn.symm
    exact hne hn'

/-- C4, amended: for a `ProviderID` managed by VMSS the mode is `Uniform` whenever the VM
name is the scale-set name, then `_`, then any suffix (possibly empty or not numeric), and
`Flexible` whenever the
scale-set name is not a prefix of the VM name. -/
theorem C4_orchestration_by_name (p : ProviderID) (h : p.ManagedByVMSS = true) :
    (∀ n : Str, p.VMName = p.VMSSName ++ '_' :: n → p.VMSSOrchestration = .ok Uniform) ∧
    (¬ p.VMSSName <+: p.VMName → p.VMSSOrchestration = .ok Flexible) := by
  constructor
  · intro n hn
    simp [ProviderID.VMSSOrchestration, h, hn, HasPrefix]
  · intro hn
    have hp : HasPrefix p.VMName p.VMSSName = false := by
      rw [HasPrefix, Bool.eq_false_iff, ne_eq, List.isPrefixOf_iff_prefix]
      exact hn
    simp [ProviderID.VMSSOrchestration, h, hp]

/-- Witness of amended C4 at scale set `ss1`, VM name `ss1_abc`. -/
theorem C4_orchestration_by_name_witness :
    (ProviderID.mk VMSS "S".toList "RG".toList "ss1".toList "ss1_abc".toList).VMSSOrchestration =
      .ok Uniform :=
  (C4_orchestration_by_name (ProviderID.mk VMSS "S".toList "RG".toList "ss1".toList
    "ss1_abc".toList) (by decide)).1 "abc".toList (by decide)

/-- C5 fails at a scale-set identifier whose VM name starts with the scale-set name but has
no `_`: it parses as VMSS-managed, `VMSSOrchestration` reports `Uniform`,
`UniformVMSSInstanceID` panics with `invalid vmss instance id`, and so does
`GetNodeNameByProviderID` for every store. -/
theorem C5_uniform_without_underscore_panics :
    ParseProviderID
        "azure:///subscriptions/S/resourceGroups/RG/providers/Microsoft.Compute/virtualMachineScaleSets/ss1/virtualMachines/ss1abc".toList =
      (⟨VMSS, "S".toList, "RG".toList, "ss1".toList, "ss1abc".toList⟩, none) ∧
    (ProviderID.mk VMSS "S".toList "RG".toList "ss1".toList "ss1abc".toList).VMSSOrchestration =
      .ok Uniform ∧
    (ProviderID.mk VMSS "S".toList "RG".toList "ss1".toList "ss1abc".toList).UniformVMSSInstanceID =
      .error "invalid vmss instance id".toList ∧
    ∀ (store : VMSetStore) (ToLower : Str → Str),
      GetNodeNameByProviderID store ToLower
          "azure:///subscriptions/S/resourceGroups/RG/providers/Microsoft.Compute/virtualMachineScaleSets/ss1/virtualMachines/ss1abc".toList =
        .error "invalid vmss instance id".toList := by
  refine ⟨by decide, rfl, rfl, ?_⟩
  intro store ToLower
  rfl

/-- C6: on a `ProviderID` whose `VMManage` is not `VMSS`, `VMSSOrchestration` panics and so
does `UniformVMSSInstanceID`; neither returns a value. -/
theorem C6_non_vmss_panics (p : ProviderID) (h : p.VMManage ≠ VMSS) :
    p.VMSSOrchestration = .error "should never call this function on non-VMSS provider".toList ∧
    p.UniformVMSSInstanceID =
      .error "should never call this function on non-VMSS provider".toList := by
  have hm : p.ManagedByVMSS = false := by
    simpa [ProviderID.ManagedByVMSS] using h
  have ho : p.VMSSOrchestration =
      .error "should never call this function on non-VMSS provider".toList := by
    simp [ProviderID.VMSSOrchestration, hm]
  exact ⟨ho, by simp [ProviderID.UniformVMSSInstanceID, ho]⟩

/-- Witness of C6: the AS-managed identifier of `vm1` parses to sub `S`, rg `RG`, VM name
`vm1`, managed by VMAS, and both queries panic on the parsed value. -/
theorem C6_non_vmss_panics_witness :
    ParseProviderID
        "azure:///subscriptions/S/resourceGroups/RG/providers/Microsoft.Compute/virtualMachines/vm1".toList =
      (⟨VMAS, "S".toList, "RG".toList, [], "vm1".toList⟩, none) ∧
    (ProviderID.mk VMAS "S".toList "RG".toList [] "vm1".toList).VMSSOrchestration =
      .error "should never call this function on non-VMSS provider".toList ∧
    (ProviderID.mk VMAS "S".toList "RG".toList [] "vm1".toList).UniformVMSSInstanceID =
      .error "should never call this function on non-VMSS provider".toList :=
  ⟨by decide, C6_non_vmss_panics (ProviderID.mk VMAS "S".toList "RG".toList [] "vm1".toList)
    (by decide)⟩

/-- C7: for a VMSS-managed `ProviderID` whose VM name is the scale-set name, then `_`, then
a suffix `n` without underscore, the mode is `Uniform` and the instance ID is `n`. -/
theorem C7_uniform_instance_id (p : ProviderID) (n : Str) (hm : p.ManagedByVMSS = true)
    (hname : p.VMName = p.VMSSName ++ '_' :: n) (hn : '_' ∉ n) :
    p.VMSSOrchestration = .ok Uniform ∧ p.UniformVMSSInstanceID = .ok n := by
  have ho : p.VMSSOrchestration = .ok Uniform := by
    simp [ProviderID.VMSSOrchestration, hm, hname, HasPrefix]
  refine ⟨ho, ?_⟩
  have hsplit : Split '_' p.VMName = Split '_' p.VMSSName ++ [n] := by
    rw [hname, Split_append_sep, Split_noSep '_' n hn]
  have hlen : ¬ (Split '_' p.VMSSName ++ [n]).length < 2 := by
    have := List.length_pos.mpr (Split_ne_nil '_' p.VMSSName)
    simp only [List.length_append, List.length_singleton]
    omega
  have hu : VMSSMode.IsUniform Uniform = true := by decide
  simp only [ProviderID.UniformVMSSInstanceID, ho, hu, hsplit, hlen]
  simp

/-- Witness of C7: the scale-set identifier of `ss1_3` parses to sub `S`, rg `RG`, scale
set `ss1`, VM name `ss1_3`, managed by VMSS; it is uniform with instance ID `3`. -/
theorem C7_uniform_instance_id_witness :
    ParseProviderID
        "azure:///subscriptions/S/resourceGroups/RG/providers/Microsoft.Compute/virtualMachineScaleSets/ss1/virtualMachines/ss1_3".toList =
      (⟨VMSS, "S".toList, "RG".toList, "ss1".toList, "ss1_3".toList⟩, none) ∧
    (ProviderID.mk VMSS "S".toList "RG".toList "ss1".toList "ss1_3".toList).ManagedByVMSS = true ∧
    (ProviderID.mk VMSS "S".toList "RG".toList "ss1".toList "ss1_3".toList).VMSSOrchestration =
      .ok Uniform ∧
    (ProviderID.mk VMSS "S".toList "RG".toList "ss1".toList "ss1_3".toList).UniformVMSSInstanceID =
      .ok "3".toList :=
  ⟨by decide, by decide,
    C7_uniform_instance_id (ProviderID.mk VMSS "S".toList "RG".toList "ss1".toList "ss1_3".toList)
      "3".toList (by decide) (by decide) (by decide)⟩

/-! ## Claims on `FromVirtualMachine` -/

/-- C8, as stated, fails: a raw VM that references scale set `ss1` and availability set
`as1` is returned with `Manage = VMAS` and `VMSSName = as1`, and a raw VM that references
scale set `ss1` but has no instance view makes `FromVirtualMachine` panic. -/
theorem C8_both_references_yield_vmas :
    (∃ v, FromVirtualMachine "RG".toList
        (rawVM (some ⟨some ss1ID⟩) (some ⟨some as1ID⟩) (some ⟨none⟩)) [] = .ok v ∧
      v.Manage = VMAS ∧ v.ManagedByVMSS = false ∧ v.VMSSName = "as1".toList ∧
      lastSegment ss1ID = "ss1".toList) ∧
    FromVirtualMachine "RG".toList (rawVM (some ⟨some ss1ID⟩) none none) [] =
      .error nilDereference :=
  ⟨⟨_, rfl, by decide, by decide, by decide, by decide⟩, rfl⟩

/-- C8, amended: for every raw VM whose properties carry an instance view and reference a
scale-set resource ID and no availability-set ID, and for every list of caller-supplied
options, `FromVirtualMachine` returns a VM with `Manage = VMSS` whose `VMSSName` is the
last `/`-separated segment of the scale-set ID. -/
theorem C8_scale_set_reference (rg : Str) (vm : RawVirtualMachine)
    (props : VirtualMachineProperties) (view : VirtualMachineInstanceView) (id : Str)
    (opts : List ManageOption) (hp : vm.VirtualMachineProperties = some props)
    (hv : props.InstanceView = some view)
    (hss : referencedID props.VirtualMachineScaleSet = some id)
    (has : referencedID props.AvailabilitySet = none) :
    ∃ v, FromVirtualMachine rg vm opts = .ok v ∧ v.Manage = VMSS ∧ v.ManagedByVMSS = true ∧
      v.VMSSName = lastSegment id := by
  have hss' := referencedID_eq_some _ _ hss
  unfold FromVirtualMachine
  simp only [hp, hv, hss']
  unfold referencedID at has
  split at has
  · cases has
  · refine ⟨_, rfl, ?_⟩
    rw [foldl_opts_snoc]
    exact ⟨rfl, rfl, rfl⟩

/-- Witness of amended C8: a raw VM referencing scale set `ss1` only, constructed with the
caller option `ByVMAS "x"`. -/
theorem C8_scale_set_reference_witness :
    ∃ v, FromVirtualMachine "RG".toList (rawVM (some ⟨some ss1ID⟩) none (some ⟨none⟩))
        [ByVMAS "x".toList] = .ok v ∧
      v.Manage = VMSS ∧ v.ManagedByVMSS = true ∧ v.VMSSName = lastSegment ss1ID :=
  C8_scale_set_reference "RG".toList (rawVM (some ⟨some ss1ID⟩) none (some ⟨none⟩))
    _ ⟨none⟩ ss1ID [ByVMAS "x".toList] rfl rfl rfl rfl

/-- C9 fails at a raw VM that references availability set `as1` and no scale set: the VM is
returned with `Manage = VMAS`, but `ByVMAS` has stored the name in `VMSSName` and
`VMASName` is empty, so `GetNodeVMSetName` and `GetAgentPoolVMSetNames` report the empty
name for it. -/
theorem C9_availability_set_name_lost :
    ∃ v, FromVirtualMachine "RG".toList (rawVM none (some ⟨some as1ID⟩) (some ⟨none⟩)) [] =
        .ok v ∧
      lastSegment as1ID = "as1".toList ∧
      v.Manage = VMAS ∧ v.VMASName = [] ∧ v.VMSSName = "as1".toList ∧
      GetNodeVMSetName (storeHolding v) "vm1".toList = .ok ([], none) ∧
      GetAgentPoolVMSetNames (storeHolding v) ["vm1".toList] = .ok (some [[]], none) :=
  ⟨_, rfl, by decide, by decide, by decide, by decide, rfl, rfl⟩

/-- C10, as stated, fails: a raw VM with an instance view and neither reference,
constructed with no options, is returned with `Manage = VMAS`, not the zero value. -/
theorem C10_default_manage_is_vmas :
    ∃ v, FromVirtualMachine "RG".toList (rawVM none none (some ⟨none⟩)) [] = .ok v ∧
      v.Manage = VMAS ∧ v.Manage ≠ [] :=
  ⟨_, rfl, by decide, by decide⟩

/-- C10, amended: for every raw VM whose properties carry an instance view and reference
neither a scale-set ID nor an availability-set ID, `FromVirtualMachine` called with no
options returns a VM whose `Manage` is `VMAS`, the default of the constructor, with empty
`VMSSName` and `VMASName`. -/
theorem C10_no_reference_default (rg : Str) (vm : RawVirtualMachine)
    (props : VirtualMachineProperties) (view : VirtualMachineInstanceView)
    (hp : vm.VirtualMachineProperties = some props) (hv : props.InstanceView = some view)
    (hss : referencedID props.VirtualMachineScaleSet = none)
    (has : referencedID props.AvailabilitySet = none) :
    ∃ v, FromVirtualMachine rg vm [] = .ok v ∧ v.Manage = VMAS ∧ v.VMSSName = [] ∧
      v.VMASName = [] := by
  unfold FromVirtualMachine
  simp only [hp, hv]
  unfold referencedID at hss has
  split at hss
  · cases hss
  · split at has
    · cases has
    · exact ⟨_, rfl, rfl, rfl, rfl⟩

/-- Witness of amended C10: a raw VM with an instance view and neither reference. -/
theorem C10_no_reference_default_witness :
    ∃ v, FromVirtualMachine "RG".toList (rawVM none none (some ⟨none⟩)) [] = .ok v ∧
      v.Manage = VMAS ∧ v.VMSSName = [] ∧ v.VMASName = [] :=
  C10_no_reference_default "RG".toList (rawVM none none (some ⟨none⟩)) _ ⟨none⟩ rfl rfl rfl rfl

/-! ## Claims on the read options, the patterns and the constructors -/

/-- C14: `defaultStoreOption().Apply(opts).readType` is the Default read type for empty
`opts` and otherwise the read type set by the last option, `ForceRefresh()` giving
force-refresh and `UnsafeRead()` unsafe read; the caller's receiver is unchanged. -/
theorem C14_apply_read_type (opts : List VMSetStoreOption)
    (h : ∀ o ∈ opts, o = ForceRefresh ∨ o = UnsafeRead) :
    (defaultStoreOption.Apply []).readType = .CacheReadTypeDefault ∧
    (∀ init o, opts = init ++ [o] →
      (defaultStoreOption.Apply opts).readType = (o defaultStoreOption).readType ∧
      (o = ForceRefresh →
        (defaultStoreOption.Apply opts).readType = .CacheReadTypeForceRefresh) ∧
      (o = UnsafeRead → (defaultStoreOption.Apply opts).readType = .CacheReadTypeUnsafe)) ∧
    (applyCall defaultStoreOption opts).1 = defaultStoreOption ∧
    (applyCall defaultStoreOption opts).2 = defaultStoreOption.Apply opts := by
  refine ⟨rfl, ?_, rfl, rfl⟩
  intro init o hopts
  have ho : o = ForceRefresh ∨ o = UnsafeRead := h o (by simp [hopts])
  have hlast : defaultStoreOption.Apply opts =
      o (init.foldl (fun acc opt => opt acc) defaultStoreOption) := by
    simp [vmSetStoreOption.Apply, hopts, List.foldl_append]
  rw [hlast]
  rcases ho with rfl | rfl
  · refine ⟨rfl, fun _ => rfl, fun hne => ?_⟩
    have hc := congrFun hne defaultStoreOption
    simp [ForceRefresh, UnsafeRead] at hc
  · refine ⟨rfl, fun hne => ?_, fun _ => rfl⟩
    have hc := congrFun hne defaultStoreOption
    simp [ForceRefresh, UnsafeRead] at hc

/-- Witness of C14 at the options `UnsafeRead(), ForceRefresh()`. -/
theorem C14_apply_read_type_witness :
    (defaultStoreOption.Apply [UnsafeRead, ForceRefresh]).readType =
      .CacheReadTypeForceRefresh :=
  ((C14_apply_read_type [UnsafeRead, ForceRefresh] (by
    intro o ho
    simp only [List.mem_cons, List.mem_singleton, List.not_mem_nil, or_false] at ho
    rcases ho with rfl | rfl
    · exact Or.inr rfl
    · exact Or.inl rfl)).2.1 [UnsafeRead] ForceRefresh rfl).2.1 rfl

/-- C18: for a `ProviderID` with non-empty, slash-free subscription and resource group, a
non-empty VM name without line feed, and either `VMAS` with an empty `VMSSName` or `VMSS`
with a non-empty slash-free `VMSSName` and a slash-free VM name, parsing its `String()`
succeeds and returns the value itself. -/
theorem C18_string_parse_roundtrip (p : ProviderID) (hsub : slashFree p.SubscriptionID)
    (hrg : slashFree p.ResourceGroup) (hvm : p.VMName ≠ []) (hnl : '\n' ∉ p.VMName)
    (hkind : (p.VMManage = VMAS ∧ p.VMSSName = []) ∨
      (p.VMManage = VMSS ∧ slashFree p.VMSSName ∧ '/' ∉ p.VMName)) :
    ParseProviderID p.String = (p, none) := by
  obtain ⟨m, sub, rg, ss, vm⟩ := p
  simp only at hsub hrg hvm hnl hkind
  rcases hkind with ⟨rfl, rfl⟩ | ⟨rfl, hss, hvs⟩
  · rw [String_vmas]
    exact parse_asWire sub rg vm hsub hrg hvm hnl
  · rw [String_vmss]
    exact parse_vmssWire sub rg ss vm hsub hrg hss ⟨hvm, hvs⟩

/-- Witness of C18 at the scale-set identifier of `ss1_3`. -/
theorem C18_string_parse_roundtrip_witness :
    ParseProviderID
        (ProviderID.mk VMSS "S".toList "RG".toList "ss1".toList "ss1_3".toList).String =
      (ProviderID.mk VMSS "S".toList "RG".toList "ss1".toList "ss1_3".toList, none) :=
  C18_string_parse_roundtrip (ProviderID.mk VMSS "S".toList "RG".toList "ss1".toList
    "ss1_3".toList) (by decide) (by decide) (by decide) (by decide)
    (Or.inr (by decide))

/-- C19: no string is matched by both patterns, so trying them in the opposite order gives
the same result, and every string matched by the scale-set pattern is parsed as
VMSS-managed. -/
theorem C19_patterns_disjoint (s : Str) :
    ¬ (matchFrom vmRegexp s ≠ none ∧ matchFrom vmssRegexp s ≠ none) ∧
    ParseProviderIDSwapped s = ParseProviderID s ∧
    (matchFrom vmssRegexp s ≠ none →
      (ParseProviderID s).1.VMManage = VMSS ∧ (ParseProviderID s).2 = none) := by
  rcases parse_cases s with ⟨a, b, c, h1, h2, hp⟩ | ⟨a, b, c, d, h1, h2, -, hp⟩ | ⟨h1, h2, hp⟩
  · refine ⟨fun h => h.2 h2, ?_, fun h => absurd h2 h⟩
    rw [hp]
    simp [ParseProviderIDSwapped, FindStringSubmatch, h1, h2]
  · refine ⟨fun h => h.1 h1, ?_, fun _ => by rw [hp]; exact ⟨rfl, rfl⟩⟩
    rw [hp]
    simp [ParseProviderIDSwapped, FindStringSubmatch, h2]
  · refine ⟨fun h => h.1 h1, ?_, fun h => absurd h2 h⟩
    rw [hp]
    simp [ParseProviderIDSwapped, FindStringSubmatch, h1, h2]

/-- Witness of C19 at the scale-set identifier of `ss1_3`. -/
theorem C19_patterns_disjoint_witness :
    (ParseProviderID (vmssWire "S".toList "RG".toList "ss1".toList "ss1_3".toList)).1.VMManage =
        VMSS ∧
      (ParseProviderID (vmssWire "S".toList "RG".toList "ss1".toList "ss1_3".toList)).2 = none :=
  (C19_patterns_disjoint (vmssWire "S".toList "RG".toList "ss1".toList "ss1_3".toList)).2.2
    (by decide)

/-- C20 fails at a raw VM whose `VirtualMachineProperties` is nil and at a raw scale-set VM
whose properties are nil: both constructors panic on the nil dereference in their struct
literal, as they do when the properties are present and the instance view is nil. -/
theorem C20_nil_properties_panic :
    FromVirtualMachine "RG".toList rawVMNoProperties [] = .error nilDereference ∧
    FromVirtualMachineScaleSetVM "RG".toList (rawVMSSVM none) (ByVMSS "ss1".toList) =
      .error nilDereference ∧
    FromVirtualMachine "RG".toList (rawVM none none none) [] = .error nilDereference ∧
    FromVirtualMachineScaleSetVM "RG".toList
        (rawVMSSVM (some ⟨none, none, none, none, none, none⟩)) (ByVMSS "ss1".toList) =
      .error nilDereference :=
  ⟨rfl, rfl, rfl, rfl⟩

/-- C17 fails: with a cached token that expired six minutes ago `refreshToken` returns
without calling `GetSecret` and `GetToken` hands out the expired token, while with a
cached token that is valid for another hour the secret is fetched again. -/
theorem C17_refresh_guard_inverted :
    (∀ (getSecret : Except GoError (Option Str))
        (unmarshal : Str → Except GoError KeyVaultCredentialSecret),
      KeyVaultCredential.refreshToken ⟨some ⟨"old".toList, 0⟩⟩ 360000000000 360000000000
          getSecret unmarshal =
        { cred := ⟨some ⟨"old".toList, 0⟩⟩, err := none, fetched := false } ∧
      KeyVaultCredential.GetToken ⟨some ⟨"old".toList, 0⟩⟩ 360000000000 360000000000
          getSecret unmarshal =
        .ok (⟨some ⟨"old".toList, 0⟩⟩, ⟨"old".toList, 0⟩, none)) ∧
    (KeyVaultCredential.refreshToken ⟨some ⟨"old".toList, 3600000000000⟩⟩ 0 0
        (.ok (some "new".toList)) (fun _ => .ok ⟨"new".toList, 7200000000000⟩)).fetched =
      true := by
  have h : KeyVaultCredential.skipsRefresh ⟨some ⟨"old".toList, 0⟩⟩ 360000000000 = true := by
    decide
  have hr : ∀ (getSecret : Except GoError (Option Str))
      (unmarshal : Str → Except GoError KeyVaultCredentialSecret),
      KeyVaultCredential.refreshToken ⟨some ⟨"old".toList, 0⟩⟩ 360000000000 360000000000
          getSecret unmarshal =
        { cred := ⟨some ⟨"old".toList, 0⟩⟩, err := none, fetched := false } := by
    intro getSecret unmarshal
    unfold KeyVaultCredential.refreshToken
    rw [if_pos h]
  refine ⟨fun getSecret unmarshal => ⟨hr getSecret unmarshal, ?_⟩, ?_⟩
  · unfold KeyVaultCredential.GetToken
    rw [hr getSecret unmarshal]
  · decide

/-! ## Claims on the VM store -/

/-- C11: an error of the resource-group resolver or of the list read is returned unchanged;
when the list `l` of the resource group is read without error (its entries carrying the
VMs `vms`), the loader of `vmByName` returns the first VM of `l` named `n`, and it returns
`ErrVMSetStoreCacheMiss` with no value exactly when no VM of `l` is named `n`. -/
theorem C11_vm_by_name_loader (GetNodeResourceGroup : Str → Str × Option GoError)
    (cache : TimedCache) (n rg : Str) :
    (∀ err, GetNodeResourceGroup n = (rg, some err) →
      vmByNameLoader GetNodeResourceGroup cache n = .ok (.nil, some err)) ∧
    (∀ v err, GetNodeResourceGroup n = (rg, none) →
      cache.Get rg .CacheReadTypeDefault = (v, some err) →
      vmByNameLoader GetNodeResourceGroup cache n = .ok (.nil, some err)) ∧
    (∀ (l : List (Option VMSetStoreVMEntry)) (vms : List VirtualMachine),
      GetNodeResourceGroup n = (rg, none) →
      cache.Get rg .CacheReadTypeDefault = (.vmEntries l, none) →
      l.map entryVM = vms.map some →
      (∀ v, (vms.find? fun v => v.Name == n) = some v →
        vmByNameLoader GetNodeResourceGroup cache n = .ok (.vm (some v), none)) ∧
      (vmByNameLoader GetNodeResourceGroup cache n = .ok (.nil, some ErrVMSetStoreCacheMiss) ↔
        ∀ v ∈ vms, v.Name ≠ n)) := by
  refine ⟨?_, ?_, ?_⟩
  · intro err hrg
    simp [vmByNameLoader, hrg]
  · intro v err hrg hget
    simp [vmByNameLoader, hrg, hget]
  · intro l vms hrg hget hl
    have hscan := vmByNameScan_spec n l vms hl
    have hload : vmByNameLoader GetNodeResourceGroup cache n = vmByNameScan n l := by
      simp [vmByNameLoader, hrg, hget]
    rw [hload, hscan]
    constructor
    · intro v hv
      rw [hv]
    · cases hf : vms.find? fun v => v.Name == n with
      | none =>
        simp only [true_iff]
        intro v hv
        have := List.find?_eq_none.mp hf v hv
        simpa using this
      | some w =>
        have hw := List.find?_some hf
        have hmem := List.mem_of_find?_eq_some hf
        constructor
        · intro h
          simp at h
        · intro h
          exact absurd (by simpa using hw) (h w hmem)

/-- Witness of C11: the resource group `RG` lists one VM, named `vm1`, and the loader is
asked for `vm1`. -/
theorem C11_vm_by_name_loader_witness :
    ∃ v, FromVirtualMachine "RG".toList (rawVM none none (some ⟨none⟩)) [] = .ok v ∧
      vmByNameLoader (fun _ => ("RG".toList, none))
          (cacheHolding (.vmEntries [some ⟨some v, 0⟩])) "vm1".toList =
        .ok (.vm (some v), none) :=
  ⟨_, rfl,
    ((C11_vm_by_name_loader (fun _ => ("RG".toList, none))
      (cacheHolding (.vmEntries [some ⟨some _, 0⟩])) "vm1".toList "RG".toList).2.2
        [some ⟨some _, 0⟩] [_] rfl rfl rfl).1 _ (by decide)⟩

/-- C12 fails on every value the loader of `vmListByResourceGroup` produces.  For a resource
group listing one VM of scale set `ss1` the loader returns a `[]*VMSetStoreVMEntry`, for a
missing resource group the nil interface; on either, `ListVMByVMSS` panics at the type
assertion to `*sync.Map`, whatever the slice holds. -/
theorem C12_list_vm_by_vmss_panics :
    (∃ entries,
      vmListByResourceGroupLoader "RG".toList [rawVM (some ⟨some ss1ID⟩) none (some ⟨none⟩)]
          true none (fun _ => 0) = .ok (.vmEntries entries, none) ∧
      entries.length = 1 ∧
      VMSetStoreVM.ListVMByVMSS ⟨cacheHolding (.vmEntries entries), cacheHolding .nil⟩
          "RG".toList "ss1".toList [] = .error interfaceConversion) ∧
    (vmListByResourceGroupLoader "RG".toList [] false none (fun _ => 0) = .ok (.nil, none) ∧
      VMSetStoreVM.ListVMByVMSS ⟨cacheHolding .nil, cacheHolding .nil⟩
          "RG".toList "ss1".toList [] = .error interfaceConversion) ∧
    ∀ (l : List (Option VMSetStoreVMEntry)) (rg vn : Str) (opts : List VMSetStoreOption),
      VMSetStoreVM.ListVMByVMSS ⟨cacheHolding (.vmEntries l), cacheHolding .nil⟩ rg vn opts =
        .error interfaceConversion :=
  ⟨⟨_, rfl, rfl, rfl⟩, ⟨rfl, rfl⟩, fun _ _ _ _ => rfl⟩

/-- C13 fails on every value the loader of `vmListByResourceGroup` produces.  For a resource
group whose loader listed the VM `vm1` of scale set `ss1`, the cached value is a
`[]*VMSetStoreVMEntry`, and `GetVMByVMSSAndName` for `vm1` and `GetVMByVMSSAndInstanceID`
both panic at the type assertion to `*sync.Map` instead of returning the VM or
`ErrVMSetStoreCacheMiss`; so does `GetNodeNameByProviderID` on a scale-set identifier of
that resource group, and so do both lookups on the nil interface cached for a missing
resource group. -/
theorem C13_lookups_panic_on_loader_value :
    (∃ entries v,
      vmListByResourceGroupLoader "RG".toList [rawVM (some ⟨some ss1ID⟩) none (some ⟨none⟩)]
          true none (fun _ => 0) = .ok (.vmEntries entries, none) ∧
      entries = [some ⟨some v, 0⟩] ∧ v.Name = "vm1".toList ∧ v.ManagedByVMSS = true ∧
      v.VMSSName = "ss1".toList ∧
      VMSetStoreVM.GetVMByVMSSAndName ⟨cacheHolding (.vmEntries entries), cacheHolding .nil⟩
          "RG".toList "ss1".toList "vm1".toList [] = .error interfaceConversion ∧
      VMSetStoreVM.GetVMByVMSSAndInstanceID ⟨cacheHolding (.vmEntries entries), cacheHolding .nil⟩
          "RG".toList "ss1".toList "3".toList [] = .error interfaceConversion ∧
      ∀ ToLower : Str → Str,
        ScaleSet.GetNodeNameByProviderID ⟨cacheHolding (.vmEntries entries), cacheHolding .nil⟩
            ToLower
            "azure:///subscriptions/S/resourceGroups/RG/providers/Microsoft.Compute/virtualMachineScaleSets/ss1/virtualMachines/vm1".toList =
          .error interfaceConversion) ∧
    (vmListByResourceGroupLoader "RG".toList [] false none (fun _ => 0) = .ok (.nil, none) ∧
      VMSetStoreVM.GetVMByVMSSAndName ⟨cacheHolding .nil, cacheHolding .nil⟩
          "RG".toList "ss1".toList "vm1".toList [] = .error interfaceConversion ∧
      VMSetStoreVM.GetVMByVMSSAndInstanceID ⟨cacheHolding .nil, cacheHolding .nil⟩
          "RG".toList "ss1".toList "3".toList [] = .error interfaceConversion) ∧
    ∀ (l : List (Option VMSetStoreVMEntry)) (rg vn key : Str) (opts : List VMSetStoreOption),
      VMSetStoreVM.GetVMByVMSSAndName ⟨cacheHolding (.vmEntries l), cacheHolding .nil⟩
          rg vn key opts = .error interfaceConversion ∧
      VMSetStoreVM.GetVMByVMSSAndInstanceID ⟨cacheHolding (.vmEntries l), cacheHolding .nil⟩
          rg vn key opts = .error interfaceConversion :=
  ⟨⟨_, _, rfl, rfl, by decide, by decide, by decide, rfl, rfl, fun _ => rfl⟩, ⟨rfl, rfl, rfl⟩,
    fun _ _ _ _ _ => ⟨rfl, rfl⟩⟩

/-! ## Claims on the scale-set and availability-set loaders -/

/-- C15: on a list returned without error, the scale-set loader and the availability-set
loader succeed with a mapping whose keys are exactly the non-empty names of the list, each
key holding an entry with the last listed resource of that name and the resource group;
resources with a nil or empty name are skipped. -/
theorem C15_set_loaders (rg : Str) (clock : Nat → Time)
    (scaleSets : List RawVirtualMachineScaleSet) (availabilitySets : List RawAvailabilitySet) :
    (∃ m, vmssListByResourceGroupLoader rg scaleSets none clock = .ok (.syncMap m, none) ∧
      ∀ k, (syncMapLoad m k ≠ none ↔ k ≠ [] ∧ ∃ sc ∈ scaleSets, sc.Name = some k) ∧
        (∀ e, syncMapLoad m k = some e →
          ∃ sc t, e = .vmssEntry (some ⟨rg, some sc, t⟩) ∧
            lastNamed (fun sc => sc.Name) k scaleSets = some sc)) ∧
    (∃ m, vmasByNameLoader rg availabilitySets none clock = .ok (.syncMap m, none) ∧
      ∀ k, (syncMapLoad m k ≠ none ↔ k ≠ [] ∧ ∃ av ∈ availabilitySets, av.Name = some k) ∧
        (∀ e, syncMapLoad m k = some e →
          ∃ av t, e = .vmasEntry (some ⟨rg, some av, t⟩) ∧
            lastNamed (fun av => av.Name) k availabilitySets = some av)) := by
  constructor
  · obtain ⟨m, hm, hk⟩ := vmssLoaderLoop_spec rg clock scaleSets 0 []
    refine ⟨m, by simp [vmssListByResourceGroupLoader, hm], fun k => ?_⟩
    rw [← lastNamed_ne_none_iff (fun sc => sc.Name) k scaleSets]
    cases hl : lastNamed (fun sc => sc.Name) k scaleSets with
    | none =>
      have h0 : syncMapLoad m k = none := by rw [(hk k).1 hl]; rfl
      exact ⟨by simp [h0], fun e he => by rw [h0] at he; cases he⟩
    | some sc =>
      obtain ⟨t, ht⟩ := (hk k).2 sc hl
      refine ⟨by simp [ht], fun e he => ?_⟩
      rw [ht] at he
      exact ⟨sc, t, (Option.some.inj he).symm, rfl⟩
  · obtain ⟨m, hm, hk⟩ := vmasLoaderLoop_spec rg clock availabilitySets 0 []
    refine ⟨m, by simp [vmasByNameLoader, hm], fun k => ?_⟩
    rw [← lastNamed_ne_none_iff (fun av => av.Name) k availabilitySets]
    cases hl : lastNamed (fun av => av.Name) k availabilitySets with
    | none =>
      have h0 : syncMapLoad m k = none := by rw [(hk k).1 hl]; rfl
      exact ⟨by simp [h0], fun e he => by rw [h0] at he; cases he⟩
    | some av =>
      obtain ⟨t, ht⟩ := (hk k).2 av hl
      refine ⟨by simp [ht], fun e he => ?_⟩
      rw [ht] at he
      exact ⟨av, t, (Option.some.inj he).symm, rfl⟩

end CloudProviderAzure
